import Mathlib

/-!
# Verification of the oxidized-wallet ledger core

Shallow embedding of `wallet-core` (Rust) and proofs about the claims of
its specification. The embedding follows the source files:

- `src/wallet-core/src/models/money.rs`       → `Currency`, `Money`
- `src/wallet-core/src/models/account.rs`     → `AccountType`, `Account`
- `src/wallet-core/src/models/transaction.rs` → `EntryType`, `Txn`, `TxnEntry`
- `src/wallet-core/src/errors/mod.rs`         → `WalletError`
- `src/wallet-core/src/db/accounts.rs`        → `AccountRepository.*`
- `src/wallet-core/src/db/transactions.rs`    → `TransactionRepository.*`
- `src/wallet-core/src/services/*.rs`         → `AccountService.*`,
  `TransactionService.*`, `ReportService.*`

Modelling conventions:
- `i64` columns and amounts are modelled as unbounded `Int`; none of the
  claims is about two's-complement overflow behaviour.
- The SQLite database is a record of row lists (`DB`). Reads are pure;
  the only multi-row write (`create_transaction`) takes a fault-injection
  argument `failAt` naming the insert statement that fails, modelling an
  underlying driver failure.
- `sqlx`'s `fetch_one`/`fetch_optional` return the first row of the
  result set; with `GROUP BY currency` the group order of SQLite is
  unspecified, modelled here as first-occurrence order of the scanned
  rows (any fixed choice supports the same theorems).
- Timestamps (`created_at`/`updated_at`, `CURRENT_TIMESTAMP`) are opaque
  `Nat` clock values passed in by the caller.
-/

namespace OxWallet

/-! ## Errors (`errors/mod.rs`)

The enum in `errors/mod.rs` declares `CurrencyError`, `DatabaseError`
(wrapping `sqlx::Error`) and `MigrationError`. The services additionally
construct `WalletError::ValidationError(String)` throughout, so the
modelled taxonomy carries that constructor as well. There is no
`NotFoundError` constructor anywhere: a `fetch_one` miss surfaces as
`sqlx::Error::RowNotFound` wrapped in `DatabaseError`, and a row whose
currency column fails `Currency::from_code` surfaces as a decode error
wrapped in `DatabaseError`. -/

deriving instance DecidableEq for Except

inductive SqlxError where
  | RowNotFound : SqlxError
  | DecodeFailed : SqlxError
  | InjectedFailure : SqlxError
deriving DecidableEq, Repr

inductive WalletError where
  | CurrencyError (code : String) : WalletError
  | DatabaseError (e : SqlxError) : WalletError
  | MigrationError : WalletError
  | ValidationError (msg : String) : WalletError
deriving DecidableEq, Repr

/-- `true` exactly on the `ValidationError` kind of the taxonomy. -/
def WalletError.isValidationKind : WalletError → Bool
  | .ValidationError _ => true
  | _ => false

/-- `true` on the kinds that wrap the storage layer (the spec's
"StorageError": persistence/connection/migration failures). -/
def WalletError.isStorageKind : WalletError → Bool
  | .DatabaseError _ => true
  | .MigrationError => true
  | _ => false

/-! ## Calendar dates (`chrono::NaiveDate`)

Only the operations the source uses are modelled: validated construction
from year/month/day, the previous day, and comparison. Comparison is done
through an injective monotone key, so that SQL date comparisons become
integer comparisons. (chrono's ±262143 year bound and the `pred_opt`
failure at `NaiveDate::MIN` are irrelevant to every claim, which only
exercises ordinary dates; `pred_opt` is therefore total here.) -/

structure Date where
  year : Int
  month : Nat
  day : Nat
deriving DecidableEq, Repr

namespace Date

def isLeapYear (y : Int) : Bool :=
  y % 4 = 0 && (y % 400 = 0 || y % 100 ≠ 0)

def daysInMonth (y : Int) (m : Nat) : Nat :=
  if m = 2 then (if isLeapYear y then 29 else 28)
  else if m = 4 ∨ m = 6 ∨ m = 9 ∨ m = 11 then 30
  else 31

/-- `NaiveDate::from_ymd_opt`. -/
def from_ymd_opt (y : Int) (m d : Nat) : Option Date :=
  if 1 ≤ m ∧ m ≤ 12 ∧ 1 ≤ d ∧ d ≤ daysInMonth y m then some ⟨y, m, d⟩
  else none

/-- `NaiveDate::pred_opt` (total in this model, see above). -/
def pred_opt (d : Date) : Option Date :=
  if 1 < d.day then some ⟨d.year, d.month, d.day - 1⟩
  else if 1 < d.month then
    some ⟨d.year, d.month - 1, daysInMonth d.year (d.month - 1)⟩
  else some ⟨d.year - 1, 12, 31⟩

/-- Injective monotone linearisation used for date comparison: months
and days stay below 100, so lexicographic order is preserved. -/
def key (d : Date) : Int :=
  d.year * 10000 + (d.month : Int) * 100 + (d.day : Int)

end Date

/-! ## String primitives

`str::to_uppercase` and `str::trim` are modelled by character-list
versions (ASCII-complete, which covers every code and name in play;
core's `String.toUpper`/`String.trim` do not reduce inside the kernel). -/

def upperChar (c : Char) : Char :=
  if 'a' ≤ c ∧ c ≤ 'z' then Char.ofNat (c.toNat - 32) else c

/-- Rust `to_uppercase`, on the ASCII range. -/
def toUpperAscii (s : String) : String := ⟨s.data.map upperChar⟩

/-- Rust `str::trim`: strip leading and trailing whitespace. -/
def trimAscii (s : String) : String :=
  ⟨(s.data.dropWhile Char.isWhitespace).reverse.dropWhile Char.isWhitespace
    |>.reverse⟩

/-! ## Money and currency (`models/money.rs`) -/

structure Currency where
  code : String
  minor_unit_scale : Nat
  symbol : String
deriving DecidableEq, Repr

namespace Currency

/-- `Currency::new`: validates the byte length of the code (the codes in
play are ASCII, so `String.length` agrees with Rust's `len()`). -/
def new (code : String) (minor_unit_scale : Nat) (symbol : String) :
    Except WalletError Currency :=
  if code.length ≠ 3 then .error (.CurrencyError code)
  else .ok ⟨code, minor_unit_scale, symbol⟩

def eur : Currency := ⟨"EUR", 2, "€"⟩

def btc : Currency := ⟨"BTC", 8, "₿"⟩

/-- `Currency::from_code`: only `EUR` and `BTC` are recognized. -/
def from_code (code : String) : Except WalletError Currency :=
  if toUpperAscii code = "EUR" then .ok eur
  else if toUpperAscii code = "BTC" then .ok btc
  else .error (.CurrencyError code)

end Currency

structure Money where
  amount_minor : Int
  currency : Currency
deriving DecidableEq, Repr

/-- `Money::from_minor_units`. -/
def Money.from_minor_units (amount_minor : Int) (currency : Currency) : Money :=
  ⟨amount_minor, currency⟩

/-! ## Accounts and transactions (`models/account.rs`, `models/transaction.rs`) -/

inductive AccountType where
  | Asset | Liability | Equity | Income | Expense
deriving DecidableEq, Repr

/-- The `{:?}` rendering used inside error messages. -/
def AccountType.debugStr : AccountType → String
  | .Asset => "Asset"
  | .Liability => "Liability"
  | .Equity => "Equity"
  | .Income => "Income"
  | .Expense => "Expense"

inductive EntryType where
  | Credit | Debit
deriving DecidableEq, Repr

/-- In-memory `Account` as the services pass it around (`models/account.rs`). -/
structure Account where
  id : Option Int
  name : String
  account_type : AccountType
  parent_id : Option Int
  currency : Currency
  description : Option String
  is_active : Bool
  created_at : Nat
  updated_at : Nat
deriving DecidableEq, Repr

structure TxnEntry where
  id : Option Int
  transaction_id : Int
  account_id : Int
  amount : Money
  entry_type : EntryType
  description : Option String
  created_at : Nat
deriving DecidableEq, Repr

structure Txn where
  id : Option Int
  description : String
  reference : Option String
  transaction_date : Date
  created_at : Nat
  tags : Option String
  notes : Option String
  entries : List TxnEntry
deriving DecidableEq, Repr

/-- `TransactionEntryInput` (`services/transaction_service.rs`). -/
structure TransactionEntryInput where
  account_id : Int
  amount : Money
  entry_type : EntryType
  description : Option String
deriving DecidableEq, Repr

/-! ## Validation (`services/transaction_service.rs`,
`TransactionService::validate_transaction_balance`) -/

namespace TransactionService

/-- `TransactionService::validate_transaction_balance`: a pure check on
the proposed entry list, mirrored branch for branch. -/
def validate_transaction_balance (entries : List TransactionEntryInput) :
    Except WalletError Unit :=
  if entries.length < 2 then
    .error (.ValidationError "Transaction must have at least 2 entries")
  else if entries.any (fun e => e.amount.amount_minor ≤ 0) then
    .error (.ValidationError "All transaction amounts must be positive")
  else
    let first_currency :=
      match entries with
      | e :: _ => e.amount.currency.code
      | [] => ""   -- unreachable: the length check guarantees ≥ 2 entries
    if entries.any (fun e => e.amount.currency.code ≠ first_currency) then
      .error (.ValidationError "Multi-currency transactions not supported yet")
    else
      let total_debits : Int :=
        ((entries.filter (fun e => e.entry_type = .Debit)).map
          (fun e => e.amount.amount_minor)).sum
      let total_credits : Int :=
        ((entries.filter (fun e => e.entry_type = .Credit)).map
          (fun e => e.amount.amount_minor)).sum
      if total_debits ≠ total_credits then
        .error (.ValidationError
          ("Transaction is not balanced: debits=" ++ toString total_debits ++
            ", credits=" ++ toString total_credits))
      else
        .ok ()

/-- Total of the Debit entries' minor units, as the source computes it. -/
def totalDebits (entries : List TransactionEntryInput) : Int :=
  ((entries.filter (fun e => e.entry_type = .Debit)).map
    (fun e => e.amount.amount_minor)).sum

/-- Total of the Credit entries' minor units, as the source computes it. -/
def totalCredits (entries : List TransactionEntryInput) : Int :=
  ((entries.filter (fun e => e.entry_type = .Credit)).map
    (fun e => e.amount.amount_minor)).sum

end TransactionService

/-! ## The persisted state (schema of §6)

Rows as the SQLite tables hold them. `currency` and `entry_type` columns
are text: the currency column genuinely holds whatever 3-letter code a
caller put into a `Currency` (only `EUR`/`BTC` decode back), so it is
kept as a raw `String`; the `account_type` column only ever receives the
five encoded enum values (every insert binds an `AccountType`), so it is
kept at the enum level. Autoincrement row ids are modelled by explicit
counters. -/

structure StoredAccount where
  id : Int
  name : String
  account_type : AccountType
  parent_id : Option Int
  currency_code : String
  description : Option String
  is_active : Bool
  created_at : Nat
  updated_at : Nat
deriving DecidableEq, Repr

structure StoredTxn where
  id : Int
  description : String
  reference : Option String
  transaction_date : Date
  created_at : Nat
  tags : Option String
  notes : Option String
deriving DecidableEq, Repr

structure StoredEntry where
  id : Int
  transaction_id : Int
  account_id : Int
  amount_minor : Int
  currency_code : String
  entry_type_str : String
  description : Option String
  created_at : Nat
deriving DecidableEq, Repr

structure DB where
  accounts : List StoredAccount
  transactions : List StoredTxn
  entries : List StoredEntry
  next_account_id : Int
  next_txn_id : Int
  next_entry_id : Int
deriving DecidableEq, Repr

/-- Contribution of one entry row to
`SUM(CASE WHEN entry_type = 'debit' THEN amount_minor ELSE 0 END)`. -/
def debitPart (e : StoredEntry) : Int :=
  if e.entry_type_str = "debit" then e.amount_minor else 0

/-- Contribution of one entry row to the credit `SUM(CASE WHEN ...)`. -/
def creditPart (e : StoredEntry) : Int :=
  if e.entry_type_str = "credit" then e.amount_minor else 0

/-! ## Account repository (`db/accounts.rs`) -/

namespace AccountRepository

/-- `Account::from_row`: decode a stored row, running
`Currency::from_code` on the currency column. An unrecognized code is a
`sqlx` decode error, surfaced as the `DatabaseError` kind. -/
def decodeAccount (a : StoredAccount) : Except WalletError Account :=
  match Currency.from_code a.currency_code with
  | .error _ => .error (.DatabaseError .DecodeFailed)
  | .ok c =>
      .ok { id := some a.id, name := a.name, account_type := a.account_type,
            parent_id := a.parent_id, currency := c,
            description := a.description, is_active := a.is_active,
            created_at := a.created_at, updated_at := a.updated_at }

/-- `AccountRepository::get_by_id`: `fetch_one` on `WHERE id = ?`; a miss
is `sqlx::Error::RowNotFound` wrapped in `DatabaseError`. -/
def get_by_id (db : DB) (id : Int) : Except WalletError Account :=
  match db.accounts.find? (fun a => a.id = id) with
  | none => .error (.DatabaseError .RowNotFound)
  | some a => decodeAccount a

/-- `AccountRepository::get_all`: every row, decoded. (The `ORDER BY
created_at DESC` only permutes the rows; every consumer filters and sums
commutatively, so row order is kept as stored.) -/
def get_all (db : DB) : Except WalletError (List Account) :=
  db.accounts.mapM decodeAccount

/-- `AccountRepository::get_account_transaction_sums`: debit/credit sums
of this account's entry rows, `GROUP BY currency`, first group only
(`fetch_optional`). -/
def get_account_transaction_sums (db : DB) (account_id : Int) :
    Option (Int × Int × String) :=
  let es := db.entries.filter (fun e => e.account_id = account_id)
  match es with
  | [] => none
  | e0 :: _ =>
      let grp := es.filter (fun e => e.currency_code = e0.currency_code)
      some ((grp.map debitPart).sum, (grp.map creditPart).sum, e0.currency_code)

/-- One step of the recursive CTE in
`AccountRepository::get_descendant_account_ids`: `bId` is collected iff
it is the queried root, or it is an active account whose parent is
collected. Fuel bounds the chain length; `db.accounts.length + 1` steps
reach every collectable row. -/
def reachesActive (db : DB) (root : Int) : Nat → Int → Bool
  | 0, _ => false
  | fuel + 1, bId =>
      bId = root ||
      match db.accounts.find? (fun a => a.id = bId) with
      | some a =>
          a.is_active &&
          match a.parent_id with
          | some p => reachesActive db root fuel p
          | none => false
      | none => false

/-- `AccountRepository::get_descendant_account_ids`: the queried account
(if stored) plus every account reachable downward from it through active
rows. Only set membership of the result is consumed downstream. -/
def get_descendant_account_ids (db : DB) (root : Int) : List Int :=
  (db.accounts.map (fun a => a.id)).filter
    (fun i => reachesActive db root (db.accounts.length + 1) i)

/-- `AccountRepository::get_multiple_accounts_transaction_sums`:
like the single-account sums but over `account_id IN (...)`. -/
def get_multiple_accounts_transaction_sums (db : DB) (account_ids : List Int) :
    Option (Int × Int × String) :=
  if account_ids.isEmpty then none
  else
    let es := db.entries.filter (fun e => account_ids.contains e.account_id)
    match es with
    | [] => none
    | e0 :: _ =>
        let grp := es.filter (fun e => e.currency_code = e0.currency_code)
        some ((grp.map debitPart).sum, (grp.map creditPart).sum, e0.currency_code)

/-- `AccountRepository::get_children`: active direct children, decoded.
(`ORDER BY name` only permutes the rows; the service consumes emptiness
and count.) Inactive rows are filtered out by the SQL before any decode
happens. -/
def get_children (db : DB) (parent_id : Int) : Except WalletError (List Account) :=
  (db.accounts.filter (fun a => a.parent_id = some parent_id ∧ a.is_active)).mapM
    decodeAccount

/-- `AccountRepository::deactivate`: `UPDATE ... SET is_active = FALSE,
updated_at = CURRENT_TIMESTAMP WHERE id = ?`. -/
def deactivate (db : DB) (id : Int) (now : Nat) : DB :=
  { db with accounts := db.accounts.map (fun a =>
      if a.id = id then { a with is_active := false, updated_at := now } else a) }

/-- `AccountRepository::update`: requires `account.id`; `UPDATE ... SET
name = ?, description = ?, updated_at = CURRENT_TIMESTAMP WHERE id = ?`,
then re-reads the row. -/
def update (db : DB) (account : Account) (now : Nat) :
    (Except WalletError Account) × DB :=
  match account.id with
  | none => (.error (.ValidationError "Account ID is required for update"), db)
  | some id =>
      let db' : DB :=
        { db with accounts := db.accounts.map (fun a =>
            if a.id = id then
              { a with name := account.name, description := account.description,
                       updated_at := now }
            else a) }
      (get_by_id db' id, db')

/-- `AccountRepository::create`: plain `INSERT` (no surrounding store
transaction), then `get_by_id` on the fresh rowid — so the row persists
even when the re-read fails to decode. -/
def create (db : DB) (account : Account) (now : Nat) :
    (Except WalletError Account) × DB :=
  let id := db.next_account_id
  let row : StoredAccount :=
    { id := id, name := account.name, account_type := account.account_type,
      parent_id := account.parent_id, currency_code := account.currency.code,
      description := account.description, is_active := account.is_active,
      created_at := now, updated_at := now }
  let db' : DB := { db with accounts := db.accounts ++ [row],
                            next_account_id := id + 1 }
  (get_by_id db' id, db')

/-- `AccountRepository::get_account_transaction_sums_before_date`: the
sums restricted by the join to postings dated strictly before
`before_date`. -/
def get_account_transaction_sums_before_date (db : DB) (account_id : Int)
    (before_date : Date) : Option (Int × Int × String) :=
  let es := db.entries.filter (fun e =>
    e.account_id = account_id &&
    match db.transactions.find? (fun t => t.id = e.transaction_id) with
    | some t => t.transaction_date.key < before_date.key
    | none => false)
  match es with
  | [] => none
  | e0 :: _ =>
      let grp := es.filter (fun e => e.currency_code = e0.currency_code)
      some ((grp.map debitPart).sum, (grp.map creditPart).sum, e0.currency_code)

end AccountRepository

/-! ## Transaction repository (`db/transactions.rs`) -/

namespace TransactionRepository

/-- `TransactionRepository::get_transaction`: `fetch_one` of the header
(`RowNotFound` on a miss) plus its entry rows. An entry row with an
unrecognized currency code fails `Currency::from_code` (surfaced
unwrapped, as the source propagates the `CurrencyError` directly); an
entry row whose type string is neither `debit` nor `credit` fails with a
`ValidationError`. -/
def decodeEntry (e : StoredEntry) : Except WalletError TxnEntry := do
  let c ← Currency.from_code e.currency_code
  let et ←
    match e.entry_type_str with
    | "debit" => pure EntryType.Debit
    | "credit" => pure EntryType.Credit
    | s => .error (.ValidationError ("Invalid entry type: " ++ s))
  pure { id := some e.id, transaction_id := e.transaction_id,
         account_id := e.account_id,
         amount := Money.from_minor_units e.amount_minor c,
         entry_type := et, description := e.description,
         created_at := e.created_at }

def get_entries_for_transaction (db : DB) (transaction_id : Int) :
    Except WalletError (List TxnEntry) :=
  (db.entries.filter (fun e => e.transaction_id = transaction_id)).mapM decodeEntry

def get_transaction (db : DB) (id : Int) : Except WalletError Txn :=
  match db.transactions.find? (fun t => t.id = id) with
  | none => .error (.DatabaseError .RowNotFound)
  | some t => do
      let entries ← get_entries_for_transaction db id
      pure { id := some t.id, description := t.description,
             reference := t.reference,
             transaction_date := t.transaction_date,
             created_at := t.created_at, tags := t.tags, notes := t.notes,
             entries := entries }

/-- The loop of `TransactionRepository::create_transaction` inside the
open store transaction: insert entry rows one by one into the pending
state. `failAt` injects a driver failure on the named insert statement
(statement 0 is the header insert, statement `i + 1` the `i`-th entry
insert); `k` is the index of the next statement. -/
def insertEntries (txn_id : Int) (now : Nat) :
    List TransactionEntryInput → DB → Nat → Option Nat →
    Except WalletError (DB × List TxnEntry)
  | [], pending, _, _ => .ok (pending, [])
  | input :: rest, pending, k, failAt =>
      if failAt = some k then .error (.DatabaseError .InjectedFailure)
      else
        let entry_type_str :=
          match input.entry_type with
          | .Debit => "debit"
          | .Credit => "credit"
        let entry_id := pending.next_entry_id
        let row : StoredEntry :=
          { id := entry_id, transaction_id := txn_id,
            account_id := input.account_id,
            amount_minor := input.amount.amount_minor,
            currency_code := input.amount.currency.code,
            entry_type_str := entry_type_str,
            description := input.description, created_at := now }
        let pending' : DB := { pending with entries := pending.entries ++ [row],
                                            next_entry_id := entry_id + 1 }
        match insertEntries txn_id now rest pending' (k + 1) failAt with
        | .error e => .error e
        | .ok (final, created) =>
            .ok (final,
              { id := some entry_id, transaction_id := txn_id,
                account_id := input.account_id, amount := input.amount,
                entry_type := input.entry_type,
                description := input.description, created_at := now } :: created)

/-- `TransactionRepository::create_transaction`: begin a store
transaction, insert the header, insert every entry, commit. Uncommitted
rows live only in the pending copy; any failure returns the original
state (the dropped transaction is rolled back by the store), so no
partial write is ever observable. -/
def create_transaction (db : DB) (failAt : Option Nat) (description : String)
    (transaction_date : Date) (entries : List TransactionEntryInput)
    (now : Nat) : (Except WalletError Txn) × DB :=
  if failAt = some 0 then (.error (.DatabaseError .InjectedFailure), db)
  else
    let txn_id := db.next_txn_id
    let header : StoredTxn :=
      { id := txn_id, description := description, reference := none,
        transaction_date := transaction_date, created_at := now,
        tags := none, notes := none }
    let pending : DB := { db with transactions := db.transactions ++ [header],
                                  next_txn_id := txn_id + 1 }
    match insertEntries txn_id now entries pending 1 failAt with
    | .error e => (.error e, db)
    | .ok (final, created) =>
        (.ok { id := some txn_id, description := description, reference := none,
               transaction_date := transaction_date, created_at := now,
               tags := none, notes := none, entries := created },
         final)

end TransactionRepository

/-! ## Account service (`services/account_service.rs`) -/

namespace AccountService

/-- `AccountService::create_account`. Validation order as in the source:
parent id required, parent fetched and type-matched, trimmed name
non-empty — and no hierarchy-depth check on this path. -/
def create_account (db : DB) (name : String) (account_type : AccountType)
    (parent_id : Option Int) (currency : Currency) (now : Nat) :
    (Except WalletError Account) × DB :=
  match parent_id with
  | none => (.error (.ValidationError "Parent account is required"), db)
  | some pid =>
      match AccountRepository.get_by_id db pid with
      | .error e => (.error e, db)
      | .ok parent =>
          if parent.account_type ≠ account_type then
            (.error (.ValidationError
              ("Account type " ++ account_type.debugStr ++
                " must be created under a parent of the same type")), db)
          else
            let name := trimAscii name
            if name.isEmpty then
              (.error (.ValidationError "Account name cannot be empty"), db)
            else
              AccountRepository.create db
                { id := none, name := name, account_type := account_type,
                  parent_id := some pid, currency := currency,
                  description := none, is_active := true,
                  created_at := now, updated_at := now } now

/-- The normal-balance sign rule shared by the three balance
computations: Asset/Expense are debit-positive, the rest
credit-positive. -/
def normalBalance (t : AccountType) (debit_sum credit_sum : Int) : Int :=
  match t with
  | .Asset | .Expense => debit_sum - credit_sum
  | .Liability | .Equity | .Income => credit_sum - debit_sum

/-- The tail the source repeats verbatim in `calculate_balance`,
`calculate_balance_with_children` and `calculate_account_balance`:
no sums → zero EUR; otherwise apply the normal-balance rule to the sums
and rebuild the currency as `Currency::new(code, 2, "€")`. -/
def balanceFromSums (t : AccountType) (sums : Option (Int × Int × String)) :
    Except WalletError Money :=
  match sums with
  | none => .ok (Money.from_minor_units 0 Currency.eur)
  | some (debit_sum, credit_sum, currency_code) =>
      match Currency.new currency_code 2 "€" with
      | .error e => .error e
      | .ok currency =>
          .ok (Money.from_minor_units (normalBalance t debit_sum credit_sum)
            currency)

/-- `AccountService::calculate_balance`. -/
def calculate_balance (db : DB) (account_id : Int) : Except WalletError Money :=
  match AccountRepository.get_by_id db account_id with
  | .error e => .error e
  | .ok account =>
      balanceFromSums account.account_type
        (AccountRepository.get_account_transaction_sums db account_id)

/-- `AccountService::calculate_balance_with_children`. -/
def calculate_balance_with_children (db : DB) (account_id : Int) :
    Except WalletError Money :=
  match AccountRepository.get_by_id db account_id with
  | .error e => .error e
  | .ok account =>
      balanceFromSums account.account_type
        (AccountRepository.get_multiple_accounts_transaction_sums db
          (AccountRepository.get_descendant_account_ids db account_id))

/-- `AccountService::calculate_account_balance`: as-of-date variant;
without a date it runs the plain sums. -/
def calculate_account_balance (db : DB) (account_id : Int)
    (as_of_date : Option Date) : Except WalletError Money :=
  match AccountRepository.get_by_id db account_id with
  | .error e => .error e
  | .ok account =>
      balanceFromSums account.account_type
        (match as_of_date with
         | some date =>
             AccountRepository.get_account_transaction_sums_before_date db
               account_id date
         | none => AccountRepository.get_account_transaction_sums db account_id)

/-- `AccountService::get_children`. -/
def get_children (db : DB) (parent_id : Int) : Except WalletError (List Account) :=
  AccountRepository.get_children db parent_id

/-- `AccountService::validate_hierarchy_depth`: walk up from `parent_id`
counting visited accounts; more than 5 is a `ValidationError`. The fuel
counts the remaining allowed visits (5 at the top-level call): the 6th
visited account fails — after its fetch, before its parent link is even
inspected — exactly as `depth += 1; if depth > 5` does in the source. -/
def depthWalk (db : DB) : Nat → Int → Except WalletError Unit
  | fuel, current_id =>
      match AccountRepository.get_by_id db current_id with
      | .error e => .error e
      | .ok account =>
          match fuel with
          | 0 => .error (.ValidationError "Account hierarchy too deep (max 5 levels)")
          | fuel + 1 =>
              match account.parent_id with
              | some next_parent_id => depthWalk db fuel next_parent_id
              | none => .ok ()

def validate_hierarchy_depth (db : DB) (parent_id : Int) :
    Except WalletError Unit :=
  depthWalk db 5 parent_id

/-- The parent-related checks of `update_account`: when the input
carries a parent id, the parent must exist, share the account type, and
pass the hierarchy-depth walk. -/
def update_parent_check (db : DB) (account : Account) :
    Except WalletError Unit :=
  match account.parent_id with
  | some pid =>
      match AccountRepository.get_by_id db pid with
      | .error e => .error e
      | .ok parent =>
          if parent.account_type ≠ account.account_type then
            .error (.ValidationError
              ("Account type " ++ account.account_type.debugStr ++
                " must be under a parent of the same type"))
          else validate_hierarchy_depth db pid
  | none => .ok ()

/-- The direct self-cycle test of `update_account`. -/
def self_cycle (account : Account) : Bool :=
  match account.id, account.parent_id with
  | some aid, some pid => aid = pid
  | _, _ => false

/-- `AccountService::update_account`. Check order as in the source:
existence of the account (`id.unwrap_or(0)`), then — when the input
carries a parent — parent existence, type match and hierarchy depth,
then the direct self-parent check, then the repository update (which
touches only name, description and `updated_at`). -/
def update_account (db : DB) (account : Account) (now : Nat) :
    (Except WalletError Account) × DB :=
  match AccountRepository.get_by_id db (account.id.getD 0) with
  | .error e => (.error e, db)
  | .ok _current_account =>
      match update_parent_check db account with
      | .error e => (.error e, db)
      | .ok () =>
          if self_cycle account then
            (.error (.ValidationError "Account cannot be its own parent"), db)
          else
            AccountRepository.update db account now

/-- `AccountService::deactivate_account`: existence check, active-children
guard, then the repository flip to inactive. -/
def deactivate_account (db : DB) (id : Int) (now : Nat) :
    (Except WalletError Unit) × DB :=
  match AccountRepository.get_by_id db id with
  | .error e => (.error e, db)
  | .ok _account =>
      match get_children db id with
      | .error e => (.error e, db)
      | .ok children =>
          if ¬ children.isEmpty then
            (.error (.ValidationError
              ("Cannot deactivate account " ++ toString id ++ " - it has " ++
                toString children.length ++ " child accounts")), db)
          else
            (.ok (), AccountRepository.deactivate db id now)

end AccountService

/-! ## Transaction service orchestration
(`services/transaction_service.rs`) -/

namespace TransactionService

/-- `TransactionService::create_transaction`: validate the proposed
entries first (pure, before any write), then run the repository's atomic
create. `failAt` is the fault-injection point handed to the store. -/
def create_transaction (db : DB) (failAt : Option Nat) (description : String)
    (transaction_date : Date) (entries : List TransactionEntryInput)
    (now : Nat) : (Except WalletError Txn) × DB :=
  match validate_transaction_balance entries with
  | .error e => (.error e, db)
  | .ok () =>
      TransactionRepository.create_transaction db failAt description
        transaction_date entries now

end TransactionService

/-! ## Report service (`services/report_service.rs`) -/

namespace ReportService

/-- `ReportService::get_monthly_total_by_account_type`: for each root
account of the requested type, point-in-time balance as of the month's
last day minus point-in-time balance as of the day before the month's
first day, summed; a failing root is skipped, a failing start balance is
treated as 0. (`Currency::new("EUR", 2, "€")` cannot fail and the result
order of `get_all` only permutes a commutative sum.) -/
def get_monthly_total_by_account_type (db : DB) (account_type : AccountType)
    (year : Int) (month : Nat) : Except WalletError Money :=
  match Date.from_ymd_opt year month 1 with
  | none => .error (.ValidationError "Invalid date")
  | some start_date =>
      match (if month = 12 then Date.from_ymd_opt (year + 1) 1 1
             else Date.from_ymd_opt year (month + 1) 1) with
      | none => .error (.ValidationError "Invalid date")
      | some first_of_next =>
          match first_of_next.pred_opt with
          | none => .error (.ValidationError "Invalid date")
          | some end_date =>
              match AccountRepository.get_all db with
              | .error e => .error e
              | .ok accounts =>
                  let roots := accounts.filter (fun a =>
                    a.parent_id.isNone && a.account_type = account_type)
                  let total := roots.foldl (fun total a =>
                    match a.id with
                    | none => total
                    | some account_id =>
                        match AccountService.calculate_account_balance db
                            account_id (some end_date) with
                        | .error _ => total
                        | .ok balance =>
                            let start_balance :=
                              match AccountService.calculate_account_balance db
                                  account_id
                                  (some (start_date.pred_opt.getD start_date)) with
                              | .ok start_bal => start_bal.amount_minor
                              | .error _ => 0
                            total + (balance.amount_minor - start_balance)) 0
                  .ok (Money.from_minor_units total Currency.eur)

/-- `ReportService::get_monthly_income`. -/
def get_monthly_income (db : DB) (year : Int) (month : Nat) :
    Except WalletError Money :=
  get_monthly_total_by_account_type db .Income year month

/-- `ReportService::get_monthly_expenses`. -/
def get_monthly_expenses (db : DB) (year : Int) (month : Nat) :
    Except WalletError Money :=
  get_monthly_total_by_account_type db .Expense year month

end ReportService

/-! ## Claim C1: `validate_transaction_balance` -/

/-- On a non-empty list the head match of the currency check reduces. -/
theorem TransactionService.validate_cons (e0 : TransactionEntryInput)
    (tl : List TransactionEntryInput) :
    TransactionService.validate_transaction_balance (e0 :: tl) =
      (if (e0 :: tl).length < 2 then
        .error (.ValidationError "Transaction must have at least 2 entries")
      else if (e0 :: tl).any (fun e => e.amount.amount_minor ≤ 0) then
        .error (.ValidationError "All transaction amounts must be positive")
      else if (e0 :: tl).any
          (fun e => e.amount.currency.code ≠ e0.amount.currency.code) then
        .error (.ValidationError "Multi-currency transactions not supported yet")
      else if TransactionService.totalDebits (e0 :: tl) ≠
          TransactionService.totalCredits (e0 :: tl) then
        .error (.ValidationError
          ("Transaction is not balanced: debits=" ++
            toString (TransactionService.totalDebits (e0 :: tl)) ++
            ", credits=" ++ toString (TransactionService.totalCredits (e0 :: tl))))
      else .ok ()) := rfl

theorem TransactionService.allPos_iff (l : List TransactionEntryInput) :
    (l.any (fun e => e.amount.amount_minor ≤ 0) = false) ↔
      ∀ e ∈ l, 0 < e.amount.amount_minor := by
  simp only [List.any_eq_false, decide_eq_true_eq]
  exact ⟨fun h e he => lt_of_not_ge fun hle => h e he hle,
         fun h e he => not_le_of_lt (h e he)⟩

theorem TransactionService.sameCode_iff (e0 : TransactionEntryInput)
    (tl : List TransactionEntryInput) :
    ((e0 :: tl).any
        (fun e => e.amount.currency.code ≠ e0.amount.currency.code) = false) ↔
      ∀ e₁ ∈ e0 :: tl, ∀ e₂ ∈ e0 :: tl,
        e₁.amount.currency.code = e₂.amount.currency.code := by
  simp only [List.any_eq_false, decide_eq_true_eq, not_not]
  constructor
  · intro h e₁ h₁ e₂ h₂; exact (h e₁ h₁).trans (h e₂ h₂).symm
  · intro h e he; exact h e he e0 (List.mem_cons_self e0 tl)

/-- C1. `validate_transaction_balance` accepts exactly the entry lists
with at least two entries, all amounts strictly positive, one shared
currency code, and equal debit and credit totals; each violation yields
the specific `ValidationError` of the source, the unbalanced message
carrying both computed totals. Acceptance therefore implies
`totalDebits = totalCredits`. -/
theorem C1_validate_transaction_balance (entries : List TransactionEntryInput) :
    (TransactionService.validate_transaction_balance entries = .ok () ↔
      (2 ≤ entries.length ∧
        (∀ e ∈ entries, 0 < e.amount.amount_minor) ∧
        (∀ e₁ ∈ entries, ∀ e₂ ∈ entries,
          e₁.amount.currency.code = e₂.amount.currency.code) ∧
        TransactionService.totalDebits entries =
          TransactionService.totalCredits entries)) ∧
    (entries.length < 2 →
      TransactionService.validate_transaction_balance entries =
        .error (.ValidationError "Transaction must have at least 2 entries")) ∧
    (2 ≤ entries.length → (∃ e ∈ entries, e.amount.amount_minor ≤ 0) →
      TransactionService.validate_transaction_balance entries =
        .error (.ValidationError "All transaction amounts must be positive")) ∧
    (2 ≤ entries.length → (∀ e ∈ entries, 0 < e.amount.amount_minor) →
      (∃ e₁ ∈ entries, ∃ e₂ ∈ entries,
        e₁.amount.currency.code ≠ e₂.amount.currency.code) →
      TransactionService.validate_transaction_balance entries =
        .error (.ValidationError "Multi-currency transactions not supported yet")) ∧
    (2 ≤ entries.length → (∀ e ∈ entries, 0 < e.amount.amount_minor) →
      (∀ e₁ ∈ entries, ∀ e₂ ∈ entries,
        e₁.amount.currency.code = e₂.amount.currency.code) →
      TransactionService.totalDebits entries ≠
        TransactionService.totalCredits entries →
      TransactionService.validate_transaction_balance entries =
        .error (.ValidationError
          ("Transaction is not balanced: debits=" ++
            toString (TransactionService.totalDebits entries) ++
            ", credits=" ++ toString (TransactionService.totalCredits entries)))) := by
  match entries with
  | [] =>
      refine ⟨Iff.intro (fun h => Except.noConfusion h)
          (fun ⟨h2, _⟩ => absurd h2 (by decide)),
        fun _ => rfl,
        fun h => absurd h (by decide),
        fun h => absurd h (by decide),
        fun h => absurd h (by decide)⟩
  | [e] =>
      refine ⟨Iff.intro (fun h => Except.noConfusion h)
          (fun ⟨h2, _⟩ => absurd h2 (by simp)),
        fun _ => rfl,
        fun h => absurd h (by simp),
        fun h => absurd h (by simp),
        fun h => absurd h (by simp)⟩
  | e0 :: e1 :: tl =>
      have hlen : ¬ (e0 :: e1 :: tl).length < 2 := by simp
      have hlen2 : 2 ≤ (e0 :: e1 :: tl).length := by simp
      rw [TransactionService.validate_cons, if_neg hlen]
      by_cases hpos : (e0 :: e1 :: tl).any (fun e => e.amount.amount_minor ≤ 0)
      · rw [if_pos hpos]
        have hnotall : ¬ ∀ e ∈ e0 :: e1 :: tl, 0 < e.amount.amount_minor := by
          intro hall
          rw [← Bool.not_eq_false, (TransactionService.allPos_iff _)] at hpos
          exact hpos hall
        refine ⟨Iff.intro (fun h => Except.noConfusion h)
            (fun ⟨_, hall2, _, _⟩ => absurd hall2 hnotall),
          fun h => absurd h hlen,
          fun _ _ => rfl,
          fun _ hall _ => absurd hall hnotall,
          fun _ hall _ _ => absurd hall hnotall⟩
      · rw [if_neg hpos]
        have hall : ∀ e ∈ e0 :: e1 :: tl, 0 < e.amount.amount_minor :=
          (TransactionService.allPos_iff _).mp (Bool.not_eq_true _ ▸ hpos)
        by_cases hcur : (e0 :: e1 :: tl).any
            (fun e => e.amount.currency.code ≠ e0.amount.currency.code)
        · rw [if_pos hcur]
          have hnotsame : ¬ ∀ e₁ ∈ e0 :: e1 :: tl, ∀ e₂ ∈ e0 :: e1 :: tl,
              e₁.amount.currency.code = e₂.amount.currency.code := by
            intro hsame
            rw [← Bool.not_eq_false, (TransactionService.sameCode_iff _ _)] at hcur
            exact hcur hsame
          refine ⟨Iff.intro (fun h => Except.noConfusion h)
              (fun ⟨_, _, hsame2, _⟩ => absurd hsame2 hnotsame),
            fun h => absurd h hlen,
            ?_,
            fun _ _ _ => rfl,
            fun _ _ hsame _ => absurd hsame hnotsame⟩
          intro _ ⟨e, he, hle⟩; exact absurd (hall e he) (by omega)
        · rw [if_neg hcur]
          have hsame : ∀ e₁ ∈ e0 :: e1 :: tl, ∀ e₂ ∈ e0 :: e1 :: tl,
              e₁.amount.currency.code = e₂.amount.currency.code :=
            (TransactionService.sameCode_iff _ _).mp (Bool.not_eq_true _ ▸ hcur)
          by_cases hbal : TransactionService.totalDebits (e0 :: e1 :: tl) =
              TransactionService.totalCredits (e0 :: e1 :: tl)
          · rw [if_neg (by simpa using hbal)]
            refine ⟨Iff.intro (fun _ => ⟨hlen2, hall, hsame, hbal⟩)
                (fun _ => rfl),
              fun h => absurd h hlen,
              ?_, ?_,
              fun _ _ _ hne => absurd hbal hne⟩
            · intro _ ⟨e, he, hle⟩; exact absurd (hall e he) (by omega)
            · intro _ _ ⟨e₁, h₁, e₂, h₂, hne⟩; exact absurd (hsame e₁ h₁ e₂ h₂) hne
          · rw [if_pos (by simpa using hbal)]
            refine ⟨Iff.intro (fun h => Except.noConfusion h)
                (fun ⟨_, _, _, hbal2⟩ => absurd hbal2 hbal),
              fun h => absurd h hlen,
              ?_, ?_,
              fun _ _ _ _ => rfl⟩
            · intro _ ⟨e, he, hle⟩; exact absurd (hall e he) (by omega)
            · intro _ _ ⟨e₁, h₁, e₂, h₂, hne⟩; exact absurd (hsame e₁ h₁ e₂ h₂) hne

/-! ## Claim C2: atomicity of `create_transaction` -/

/-- The entry rows a successful create commits: one per input, with
consecutive fresh ids, all owned by the header `txn_id`. -/
def expectedEntryRows (txn_id : Int) (now : Nat) :
    Int → List TransactionEntryInput → List StoredEntry
  | _, [] => []
  | nextId, input :: rest =>
      { id := nextId, transaction_id := txn_id, account_id := input.account_id,
        amount_minor := input.amount.amount_minor,
        currency_code := input.amount.currency.code,
        entry_type_str :=
          match input.entry_type with
          | .Debit => "debit"
          | .Credit => "credit",
        description := input.description, created_at := now } ::
        expectedEntryRows txn_id now (nextId + 1) rest

/-- The in-memory entries a successful create returns. -/
def expectedCreatedEntries (txn_id : Int) (now : Nat) :
    Int → List TransactionEntryInput → List TxnEntry
  | _, [] => []
  | nextId, input :: rest =>
      { id := some nextId, transaction_id := txn_id,
        account_id := input.account_id, amount := input.amount,
        entry_type := input.entry_type, description := input.description,
        created_at := now } :: expectedCreatedEntries txn_id now (nextId + 1) rest

theorem expectedEntryRows_length (txn_id : Int) (now : Nat) :
    ∀ (nextId : Int) (inputs : List TransactionEntryInput),
      (expectedEntryRows txn_id now nextId inputs).length = inputs.length
  | _, [] => rfl
  | nextId, _ :: rest => by
      simp [expectedEntryRows, expectedEntryRows_length txn_id now (nextId + 1) rest]

theorem expectedEntryRows_owner (txn_id : Int) (now : Nat) :
    ∀ (nextId : Int) (inputs : List TransactionEntryInput),
      ∀ r ∈ expectedEntryRows txn_id now nextId inputs,
        r.transaction_id = txn_id
  | _, [], _, hr => by simp [expectedEntryRows] at hr
  | nextId, _ :: rest, r, hr => by
      simp only [expectedEntryRows, List.mem_cons] at hr
      rcases hr with h | h
      · rw [h]
      · exact expectedEntryRows_owner txn_id now (nextId + 1) rest r h

theorem expectedCreatedEntries_length (txn_id : Int) (now : Nat) :
    ∀ (nextId : Int) (inputs : List TransactionEntryInput),
      (expectedCreatedEntries txn_id now nextId inputs).length = inputs.length
  | _, [] => rfl
  | nextId, _ :: rest => by
      simp [expectedCreatedEntries,
        expectedCreatedEntries_length txn_id now (nextId + 1) rest]

/-- The entry-insert loop, when it succeeds, touches only the entry table
of the pending state: it appends exactly the expected rows. -/
theorem insertEntries_ok (txn_id : Int) (now : Nat) :
    ∀ (inputs : List TransactionEntryInput) (pending : DB) (k : Nat)
      (failAt : Option Nat) (final : DB) (created : List TxnEntry),
      TransactionRepository.insertEntries txn_id now inputs pending k failAt =
        .ok (final, created) →
      final.accounts = pending.accounts ∧
      final.transactions = pending.transactions ∧
      final.entries = pending.entries ++
        expectedEntryRows txn_id now pending.next_entry_id inputs ∧
      created = expectedCreatedEntries txn_id now pending.next_entry_id inputs ∧
      final.next_account_id = pending.next_account_id ∧
      final.next_txn_id = pending.next_txn_id ∧
      final.next_entry_id = pending.next_entry_id + inputs.length := by
  intro inputs
  induction inputs with
  | nil =>
      intro pending k failAt final created h
      simp only [TransactionRepository.insertEntries] at h
      obtain ⟨h1, h2⟩ := Prod.mk.injEq .. ▸ (Except.ok.injEq _ _ ▸ h :
        (pending, ([] : List TxnEntry)) = (final, created))
      subst h1; subst h2
      refine ⟨rfl, rfl, by simp [expectedEntryRows],
        by simp [expectedCreatedEntries], rfl, rfl, by simp⟩
  | cons input rest ih =>
      intro pending k failAt final created h
      simp only [TransactionRepository.insertEntries] at h
      by_cases hf : failAt = some k
      · rw [if_pos hf] at h; exact Except.noConfusion h
      · rw [if_neg hf] at h
        rcases heq : TransactionRepository.insertEntries txn_id now rest
            { pending with
              entries := pending.entries ++
                [{ id := pending.next_entry_id, transaction_id := txn_id,
                   account_id := input.account_id,
                   amount_minor := input.amount.amount_minor,
                   currency_code := input.amount.currency.code,
                   entry_type_str :=
                     match input.entry_type with
                     | .Debit => "debit"
                     | .Credit => "credit",
                   description := input.description, created_at := now }],
              next_entry_id := pending.next_entry_id + 1 }
            (k + 1) failAt with hE | ⟨final', created'⟩
        · rw [heq] at h; exact Except.noConfusion h
        · rw [heq] at h
          obtain ⟨h1, h2⟩ := Prod.mk.injEq .. ▸ (Except.ok.injEq _ _ ▸ h)
          obtain ⟨ha, ht, he, hc, hna, hnt, hne⟩ :=
            ih _ (k + 1) failAt final' created' heq
          subst h1
          refine ⟨ha, ht, ?_, ?_, hna, hnt, ?_⟩
          · rw [he]; simp [expectedEntryRows, List.append_assoc]
          · rw [← h2, hc]; simp [expectedCreatedEntries]
          · rw [hne]; simp only [List.length_cons]; push_cast; ring

/-- C2. `create_transaction` is atomic. Validation runs first and a
validation failure leaves the store untouched; any injected insert
failure (`failAt` names the failing insert statement: 0 the header,
`i + 1` the `i`-th entry) also leaves the store exactly as it was — zero
rows from the attempt. On success the committed state carries the header
and one entry row per input, every one owned by the new header id, so a
committed header is never observable without all of its entries. -/
theorem C2_create_transaction_atomic (db : DB) (failAt : Option Nat)
    (description : String) (d : Date) (inputs : List TransactionEntryInput)
    (now : Nat) :
    (∀ e, TransactionService.validate_transaction_balance inputs = .error e →
      TransactionService.create_transaction db failAt description d inputs now =
        (.error e, db)) ∧
    ((TransactionService.create_transaction db failAt description d inputs
        now).1.isOk = false →
      (TransactionService.create_transaction db failAt description d inputs
        now).2 = db) ∧
    (∀ txn, (TransactionService.create_transaction db failAt description d
        inputs now).1 = .ok txn →
      TransactionService.validate_transaction_balance inputs = .ok () ∧
      (TransactionService.create_transaction db failAt description d inputs
          now).2 =
        { db with
          transactions := db.transactions ++
            [{ id := db.next_txn_id, description := description,
               reference := none, transaction_date := d, created_at := now,
               tags := none, notes := none }],
          entries := db.entries ++
            expectedEntryRows db.next_txn_id now db.next_entry_id inputs,
          next_txn_id := db.next_txn_id + 1,
          next_entry_id := db.next_entry_id + inputs.length } ∧
      txn.entries =
        expectedCreatedEntries db.next_txn_id now db.next_entry_id inputs ∧
      txn.entries.length = inputs.length ∧
      (expectedEntryRows db.next_txn_id now db.next_entry_id inputs).length =
        inputs.length ∧
      (∀ r ∈ expectedEntryRows db.next_txn_id now db.next_entry_id inputs,
        r.transaction_id = db.next_txn_id)) := by
  rcases hv : TransactionService.validate_transaction_balance inputs with e | u
  · refine ⟨?_, ?_, ?_⟩
    · intro e' he'
      injection he' with h
      subst h
      simp only [TransactionService.create_transaction, hv]
    · intro _
      simp only [TransactionService.create_transaction, hv]
    · intro txn htxn
      simp only [TransactionService.create_transaction, hv] at htxn
      exact Except.noConfusion htxn
  · cases u
    have hstep : TransactionService.create_transaction db failAt description d
        inputs now =
        TransactionRepository.create_transaction db failAt description d
          inputs now := by
      simp only [TransactionService.create_transaction, hv]
    by_cases hf : failAt = some 0
    · have hrepo : TransactionRepository.create_transaction db failAt
          description d inputs now =
          (.error (.DatabaseError .InjectedFailure), db) := by
        simp only [TransactionRepository.create_transaction, if_pos hf]
      refine ⟨?_, ?_, ?_⟩
      · intro e' he'; exact Except.noConfusion he'
      · intro _; rw [hstep, hrepo]
      · intro txn htxn; rw [hstep, hrepo] at htxn
        exact Except.noConfusion htxn
    · rcases hins : TransactionRepository.insertEntries db.next_txn_id now
          inputs
          { db with
            transactions := db.transactions ++
              [{ id := db.next_txn_id, description := description,
                 reference := none, transaction_date := d, created_at := now,
                 tags := none, notes := none }],
            next_txn_id := db.next_txn_id + 1 }
          1 failAt with eIns | ⟨final, created⟩
      · have hrepo : TransactionRepository.create_transaction db failAt
            description d inputs now = (.error eIns, db) := by
          simp only [TransactionRepository.create_transaction, if_neg hf, hins]
        refine ⟨?_, ?_, ?_⟩
        · intro e' he'; exact Except.noConfusion he'
        · intro _; rw [hstep, hrepo]
        · intro txn htxn; rw [hstep, hrepo] at htxn
          exact Except.noConfusion htxn
      · have hrepo : TransactionRepository.create_transaction db failAt
            description d inputs now =
            (.ok { id := some db.next_txn_id, description := description,
                   reference := none, transaction_date := d,
                   created_at := now, tags := none, notes := none,
                   entries := created }, final) := by
          simp only [TransactionRepository.create_transaction, if_neg hf, hins]
        obtain ⟨ha, ht, he, hc, hna, hnt, hne⟩ :=
          insertEntries_ok db.next_txn_id now inputs _ 1 failAt final created
            hins
        refine ⟨?_, ?_, ?_⟩
        · intro e' he'; exact Except.noConfusion he'
        · intro hOk; rw [hstep, hrepo] at hOk
          simp [Except.isOk, Except.toBool] at hOk
        · intro txn htxn
          rw [hstep, hrepo] at htxn
          have htxn2 : Except.ok (ε := WalletError)
              ({ id := some db.next_txn_id, description := description,
                 reference := none, transaction_date := d,
                 created_at := now, tags := none, notes := none,
                 entries := created } : Txn) = .ok txn := htxn
          injection htxn2 with hrec
          refine ⟨rfl, ?_, ?_, ?_,
            expectedEntryRows_length db.next_txn_id now db.next_entry_id
              inputs,
            expectedEntryRows_owner db.next_txn_id now db.next_entry_id
              inputs⟩
          · rw [hstep, hrepo]
            show final = _
            rcases final with ⟨fa, ft, fe, fna, fnt, fne⟩
            simp only [DB.mk.injEq]
            exact ⟨ha, ht, he, hna, hnt, hne⟩
          · rw [← hrec]
            exact hc
          · rw [← hrec]
            show created.length = inputs.length
            rw [hc]
            exact expectedCreatedEntries_length db.next_txn_id now _ inputs

/-! ## Claim C7: lookups of nonexistent ids

The `WalletError` taxonomy (see its declaration above) has no
`NotFoundError` constructor at all: its kinds are `CurrencyError`,
`DatabaseError`, `MigrationError` and `ValidationError`. A lookup miss
surfaces as `DatabaseError RowNotFound` — i.e. as the kind wrapping the
storage layer, not as a kind distinct from it. -/

def emptyDb : DB :=
  { accounts := [], transactions := [], entries := [],
    next_account_id := 1, next_txn_id := 1, next_entry_id := 1 }

/-- C7 counterexample: looking up account id 999 and transaction id 999
in the empty store fails with `DatabaseError RowNotFound` — the
storage-error kind, not a `ValidationError` and not any separate
not-found kind (the taxonomy declares none). -/
theorem C7_lookup_not_found_counterexample :
    AccountRepository.get_by_id emptyDb 999 =
      .error (.DatabaseError .RowNotFound) ∧
    TransactionRepository.get_transaction emptyDb 999 =
      .error (.DatabaseError .RowNotFound) ∧
    (WalletError.DatabaseError .RowNotFound).isStorageKind = true ∧
    (WalletError.DatabaseError .RowNotFound).isValidationKind = false := by
  refine ⟨rfl, rfl, rfl, rfl⟩

/-- C7 amended: for every id that resolves to no stored row, the account
and transaction lookups fail with `DatabaseError RowNotFound` (the
storage-error kind); the taxonomy carries no distinct not-found kind. -/
theorem C7_lookup_not_found (db : DB) (id : Int) :
    ((∀ a ∈ db.accounts, a.id ≠ id) →
      AccountRepository.get_by_id db id =
        .error (.DatabaseError .RowNotFound)) ∧
    ((∀ t ∈ db.transactions, t.id ≠ id) →
      TransactionRepository.get_transaction db id =
        .error (.DatabaseError .RowNotFound)) := by
  constructor
  · intro h
    have hfind : db.accounts.find? (fun a => a.id = id) = none := by
      rw [List.find?_eq_none]
      intro a ha
      simpa using h a ha
    simp only [AccountRepository.get_by_id, hfind]
  · intro h
    have hfind : db.transactions.find? (fun t => t.id = id) = none := by
      rw [List.find?_eq_none]
      intro t ht
      simpa using h t ht
    simp only [TransactionRepository.get_transaction, hfind]

def c7WitnessDb : DB :=
  { accounts :=
      [ { id := 1, name := "Assets", account_type := .Asset, parent_id := none,
          currency_code := "EUR", description := none, is_active := true,
          created_at := 0, updated_at := 0 } ],
    transactions :=
      [ { id := 1, description := "t", reference := none,
          transaction_date := ⟨2025, 7, 6⟩, created_at := 0, tags := none,
          notes := none } ],
    entries := [], next_account_id := 2, next_txn_id := 2, next_entry_id := 1 }

/-- C7 witness: the amended lookup behaviour on a store holding only
id 1, queried at id 42. -/
theorem C7_lookup_not_found_witness :
    AccountRepository.get_by_id c7WitnessDb 42 =
      .error (.DatabaseError .RowNotFound) ∧
    TransactionRepository.get_transaction c7WitnessDb 42 =
      .error (.DatabaseError .RowNotFound) :=
  ⟨(C7_lookup_not_found c7WitnessDb 42).1 (by decide),
   (C7_lookup_not_found c7WitnessDb 42).2 (by decide)⟩

/-! ## Claim C6: hierarchy-depth enforcement

`update_account` walks the input's parent chain and fails past 5 levels;
`create_account` never performs any depth check (its validations are:
parent required, parent type match, non-empty trimmed name), so it can
persist an account of arbitrary depth. -/

/-- Length of the ancestor chain starting at (and counting) `id`,
following stored `parent_id` links; fuel-bounded. -/
def ancestorChainLen (db : DB) : Nat → Int → Nat
  | 0, _ => 0
  | fuel + 1, id =>
      match db.accounts.find? (fun a => a.id = id) with
      | none => 0
      | some a =>
          1 + (match a.parent_id with
               | some p => ancestorChainLen db fuel p
               | none => 0)

/-- A chain of six accounts: id 1 is the root, each `k + 1` is the child
of `k`. All EUR, all Asset, all active. -/
def c6db : DB :=
  { accounts :=
      (List.range 6).map (fun k =>
        { id := (k : Int) + 1, name := "L", account_type := .Asset,
          parent_id := if k = 0 then none else some (k : Int),
          currency_code := "EUR", description := none, is_active := true,
          created_at := 0, updated_at := 0 }),
    transactions := [], entries := [],
    next_account_id := 7, next_txn_id := 1, next_entry_id := 1 }

/-- C6 counterexample: creating a child under the depth-6 account 6
succeeds and persists row 7, whose ancestor chain has 7 accounts — the
claim demands a `ValidationError` whenever the resulting chain exceeds
5 levels, for `create_account` too. -/
theorem C6_depth_counterexample :
    ((AccountService.create_account c6db "Deep" .Asset (some 6) Currency.eur
        7).1).isOk = true ∧
    ancestorChainLen
      (AccountService.create_account c6db "Deep" .Asset (some 6) Currency.eur
        7).2 20 7 = 7 ∧
    5 < ancestorChainLen
      (AccountService.create_account c6db "Deep" .Asset (some 6) Currency.eur
        7).2 20 7 ∧
    ((AccountService.create_account c6db "Deep" .Asset (some 6) Currency.eur
        7).2.accounts.find? (fun a => a.id = 7)).isSome = true := by
  refine ⟨by decide, by decide, by decide, by decide⟩

/-- C6 amended: `update_account` does enforce the limit — when the
account under update exists, the input carries a parent of matching
type, and the ancestor walk from that parent exceeds 5 levels, the
update fails with the hierarchy `ValidationError` and the store is
unchanged. (`create_account` performs no such check; see the
counterexample.) -/
theorem C6_update_depth_enforced (db : DB) (account : Account) (pid : Int)
    (parent curr : Account) (now : Nat)
    (hpid : account.parent_id = some pid)
    (hcurr : AccountRepository.get_by_id db (account.id.getD 0) = .ok curr)
    (hparent : AccountRepository.get_by_id db pid = .ok parent)
    (htype : parent.account_type = account.account_type)
    (hdeep : AccountService.validate_hierarchy_depth db pid =
      .error (.ValidationError "Account hierarchy too deep (max 5 levels)")) :
    AccountService.update_account db account now =
      (.error (.ValidationError "Account hierarchy too deep (max 5 levels)"),
        db) := by
  simp only [AccountService.update_account, AccountService.update_parent_check,
    hcurr, hpid, hparent, htype, hdeep]
  rw [if_neg (show ¬ (account.account_type ≠ account.account_type) from
    fun h => h rfl)]

def c6UpdAccount : Account :=
  { id := some 2, name := "L2", account_type := .Asset, parent_id := some 6,
    currency := Currency.eur, description := none, is_active := true,
    created_at := 0, updated_at := 0 }

def c6Acc (k : Int) (p : Option Int) : Account :=
  { id := some k, name := "L", account_type := .Asset, parent_id := p,
    currency := Currency.eur, description := none, is_active := true,
    created_at := 0, updated_at := 0 }

/-- C6 witness: updating account 2 to hang under the depth-6 account 6
fails with the hierarchy `ValidationError`. -/
theorem C6_update_depth_enforced_witness :
    AccountService.update_account c6db c6UpdAccount 9 =
      (.error (.ValidationError "Account hierarchy too deep (max 5 levels)"),
        c6db) :=
  C6_update_depth_enforced c6db c6UpdAccount 6 (c6Acc 6 (some 5))
    (c6Acc 2 (some 1)) 9 rfl (by decide) (by decide) rfl (by decide)

/-! ## Claim C8: `deactivate_account` -/

/-- Parent with one active child whose stored currency code (`USD`) is
not recognized by `Currency::from_code`. Reachable through the public
API: `create_account` accepts any 3-letter `Currency` and never
re-validates the code against `from_code`. -/
def c8db : DB :=
  { accounts :=
      [ { id := 1, name := "P", account_type := .Asset, parent_id := none,
          currency_code := "EUR", description := none, is_active := true,
          created_at := 0, updated_at := 0 },
        { id := 2, name := "Ch", account_type := .Asset, parent_id := some 1,
          currency_code := "USD", description := none, is_active := true,
          created_at := 0, updated_at := 0 } ],
    transactions := [], entries := [],
    next_account_id := 3, next_txn_id := 1, next_entry_id := 1 }

/-- C8 counterexample: account 1 has exactly one active child, yet
`deactivate_account` fails with the `DatabaseError` kind (the child row's
currency column fails to decode), not with a `ValidationError` as the
claim states for every account with an active child. The flag is still
left unchanged. -/
theorem C8_deactivate_counterexample :
    (c8db.accounts.filter
      (fun a => a.parent_id = some 1 ∧ a.is_active)).length = 1 ∧
    AccountService.deactivate_account c8db 1 9 =
      (.error (.DatabaseError .DecodeFailed), c8db) ∧
    (WalletError.DatabaseError .DecodeFailed).isValidationKind = false := by
  refine ⟨by decide, by decide, rfl⟩

/-- The store after `deactivate_account` is either untouched or exactly
the repository's flip of the matching rows. -/
theorem deactivate_account_state (db : DB) (id : Int) (now : Nat) :
    (AccountService.deactivate_account db id now).2 = db ∨
    ((AccountService.deactivate_account db id now).1 = .ok () ∧
      (AccountService.deactivate_account db id now).2 =
        AccountRepository.deactivate db id now) := by
  unfold AccountService.deactivate_account
  rcases AccountRepository.get_by_id db id with e | acc
  · left; rfl
  · rcases AccountService.get_children db id with e | ch
    · left; rfl
    · by_cases h : ch.isEmpty
      · right
        constructor
        · simp [h]
        · simp [h]
      · left; simp [h]

/-- The store after `update_account` is either untouched or exactly the
repository's name/description/updated_at rewrite of the matching rows. -/
theorem update_account_state (db : DB) (account : Account) (now : Nat) :
    (AccountService.update_account db account now).2 = db ∨
    ∃ aid, account.id = some aid ∧
      (AccountService.update_account db account now).2 =
        { db with accounts := db.accounts.map (fun a =>
            if a.id = aid then
              { a with name := account.name,
                       description := account.description,
                       updated_at := now }
            else a) } := by
  unfold AccountService.update_account
  rcases AccountRepository.get_by_id db (account.id.getD 0) with e | curr
  · left; rfl
  · rcases AccountService.update_parent_check db account with e | u
    · left; rfl
    · cases u
      by_cases hc : AccountService.self_cycle account = true
      · left; simp [hc]
      · rcases hid : account.id with _ | aid
        · left
          simp only [Bool.not_eq_true] at hc
          simp [hc, AccountRepository.update, hid]
        · right
          refine ⟨aid, rfl, ?_⟩
          simp only [Bool.not_eq_true] at hc
          simp [hc, AccountRepository.update, hid]

/-- The store after `create_account` is either untouched or extended by
one appended row. -/
theorem create_account_state (db : DB) (name : String) (ty : AccountType)
    (pid : Option Int) (cur : Currency) (now : Nat) :
    (AccountService.create_account db name ty pid cur now).2 = db ∨
    ∃ row, (AccountService.create_account db name ty pid cur now).2.accounts =
      db.accounts ++ [row] := by
  rcases pid with _ | pid
  · left; rfl
  · simp only [AccountService.create_account]
    rcases hp : AccountRepository.get_by_id db pid with e | parent
    · left; rfl
    · by_cases hty : parent.account_type ≠ ty
      · left; simp [hty]
      · by_cases hname : (trimAscii name).isEmpty
        · left; simp [hty, hname]
        · right
          exact ⟨_, by simp [hty, hname, AccountRepository.create]; rfl⟩

/-- `find?` over an id-preserving row map commutes with the map. -/
theorem find?_map_id (f : StoredAccount → StoredAccount)
    (hid : ∀ a, (f a).id = a.id) (l : List StoredAccount) (i : Int) :
    (l.map f).find? (fun a => a.id = i) =
      (l.find? (fun a => a.id = i)).map f := by
  induction l with
  | nil => rfl
  | cons a tl ih =>
      by_cases h : a.id = i
      · simp [List.find?_cons, hid, h]
      · simp [List.find?_cons, hid, h, ih]

/-- C8 amended: `deactivate_account` fails and leaves the store
untouched whenever the account has an active child — with the specific
`ValidationError` when the children decode, and with the storage-error
kind when an active child's stored currency code is unrecognized (see
the counterexample). With no active children it succeeds and the row's
`is_active` becomes false; inactive children never block. And no account
operation ever turns a stored row from inactive back to active. -/
theorem C8_deactivate_account (db : DB) (id : Int) (now : Nat) :
    -- blocked by active children: specific ValidationError, store unchanged
    (∀ acc children, AccountRepository.get_by_id db id = .ok acc →
      AccountService.get_children db id = .ok children → children ≠ [] →
      AccountService.deactivate_account db id now =
        (.error (.ValidationError
          ("Cannot deactivate account " ++ toString id ++ " - it has " ++
            toString children.length ++ " child accounts")), db)) ∧
    -- any failure leaves the store unchanged
    ((AccountService.deactivate_account db id now).1.isOk = false →
      (AccountService.deactivate_account db id now).2 = db) ∧
    -- no active children (inactive ones do not block): success, flag false
    (∀ acc, AccountRepository.get_by_id db id = .ok acc →
      (∀ a ∈ db.accounts, a.parent_id = some id → a.is_active = false) →
      (AccountService.deactivate_account db id now).1 = .ok () ∧
      (∀ a ∈ (AccountService.deactivate_account db id now).2.accounts,
        a.id = id → a.is_active = false)) ∧
    -- one-way: deactivate_account never activates any row
    (∀ i old new,
      db.accounts.find? (fun a => a.id = i) = some old →
      ((AccountService.deactivate_account db id now).2.accounts.find?
        (fun a => a.id = i)) = some new →
      new.is_active = true → old.is_active = true) ∧
    -- one-way: update_account never changes any row's is_active
    (∀ account now2 i old new,
      db.accounts.find? (fun a => a.id = i) = some old →
      ((AccountService.update_account db account now2).2.accounts.find?
        (fun a => a.id = i)) = some new →
      new.is_active = old.is_active) ∧
    -- one-way: create_account never changes a pre-existing row
    (∀ name ty pid cur now2 i old new,
      db.accounts.find? (fun a => a.id = i) = some old →
      ((AccountService.create_account db name ty pid cur now2).2.accounts.find?
        (fun a => a.id = i)) = some new →
      new = old) := by
  have hflipId : ∀ a : StoredAccount,
      ((if a.id = id then { a with is_active := false, updated_at := now }
        else a) : StoredAccount).id = a.id := by
    intro a; by_cases h : a.id = id <;> simp [h]
  refine ⟨?_, ?_, ?_, ?_, ?_, ?_⟩
  · -- blocked by active children
    intro acc children hacc hch hne
    have hempty : children.isEmpty = false := by
      cases children with
      | nil => exact absurd rfl hne
      | cons c tl => rfl
    simp only [AccountService.deactivate_account, hacc, hch, hempty]
    simp
  · -- failure leaves the store unchanged
    rcases deactivate_account_state db id now with h | ⟨hok, _⟩
    · intro _; exact h
    · intro hfail; rw [hok] at hfail; simp [Except.isOk, Except.toBool] at hfail
  · -- no active children: success and flag flips
    intro acc hacc hinact
    have hfilter : db.accounts.filter
        (fun a => a.parent_id = some id ∧ a.is_active) = [] := by
      rw [List.filter_eq_nil_iff]
      intro a ha
      simp only [decide_eq_true_eq, not_and]
      intro hpar
      simp [hinact a ha hpar]
    have hch : AccountService.get_children db id = .ok [] := by
      simp only [AccountService.get_children, AccountRepository.get_children,
        hfilter]
      rfl
    have hdeact : AccountService.deactivate_account db id now =
        (.ok (), AccountRepository.deactivate db id now) := by
      simp only [AccountService.deactivate_account, hacc, hch]
      simp
    rw [hdeact]
    refine ⟨rfl, ?_⟩
    intro a ha haid
    simp only [AccountRepository.deactivate, List.mem_map] at ha
    obtain ⟨b, _, hb⟩ := ha
    by_cases h : b.id = id
    · rw [← hb]; simp [h]
    · rw [← hb] at haid ⊢
      simp [h] at haid ⊢
  · -- deactivate is one-way
    intro i old new hold hnew
    rcases deactivate_account_state db id now with h | ⟨_, h⟩
    · rw [h, hold] at hnew
      injection hnew with hnew
      rw [← hnew]; exact fun x => x
    · rw [h] at hnew
      simp only [AccountRepository.deactivate] at hnew
      rw [find?_map_id _ hflipId, hold] at hnew
      have hnew2 : some (if old.id = id then
          { old with is_active := false, updated_at := now } else old) =
          some new := hnew
      injection hnew2 with hnew2
      rw [← hnew2]
      by_cases hb : old.id = id
      · simp [hb]
      · simp [hb]
  · -- update never changes is_active
    intro account now2 i old new hold hnew
    rcases update_account_state db account now2 with h | ⟨aid, _, h⟩
    · rw [h, hold] at hnew
      injection hnew with hnew
      rw [← hnew]
    · have hupdId : ∀ a : StoredAccount,
          ((if a.id = aid then
              { a with name := account.name,
                       description := account.description,
                       updated_at := now2 }
            else a) : StoredAccount).id = a.id := by
        intro a; by_cases hb : a.id = aid <;> simp [hb]
      rw [h] at hnew
      have hnew1 : (db.accounts.map (fun a =>
          if a.id = aid then
            { a with name := account.name,
                     description := account.description,
                     updated_at := now2 }
          else a)).find? (fun a => a.id = i) = some new := hnew
      rw [find?_map_id _ hupdId, hold] at hnew1
      have hnew2 : some (if old.id = aid then
          { old with name := account.name,
                     description := account.description,
                     updated_at := now2 } else old) = some new := hnew1
      injection hnew2 with hnew2
      rw [← hnew2]
      by_cases hb : old.id = aid
      · simp [hb]
      · simp [hb]
  · -- create never changes a pre-existing row
    intro name ty pid cur now2 i old new hold hnew
    rcases create_account_state db name ty pid cur now2 with h | ⟨row, h⟩
    · rw [h, hold] at hnew
      injection hnew with hnew
      exact hnew.symm
    · rw [h, List.find?_append, hold] at hnew
      have hnew2 : some old = some new := hnew
      injection hnew2 with hnew2
      exact hnew2.symm

/-- Parent with one active EUR child. -/
def c8okDb : DB :=
  { accounts :=
      [ { id := 1, name := "P", account_type := .Asset, parent_id := none,
          currency_code := "EUR", description := none, is_active := true,
          created_at := 0, updated_at := 0 },
        { id := 2, name := "Ch", account_type := .Asset, parent_id := some 1,
          currency_code := "EUR", description := none, is_active := true,
          created_at := 0, updated_at := 0 } ],
    transactions := [], entries := [],
    next_account_id := 3, next_txn_id := 1, next_entry_id := 1 }

/-- Parent whose only child is inactive. -/
def c8inactDb : DB :=
  { accounts :=
      [ { id := 1, name := "P", account_type := .Asset, parent_id := none,
          currency_code := "EUR", description := none, is_active := true,
          created_at := 0, updated_at := 0 },
        { id := 2, name := "Ch", account_type := .Asset, parent_id := some 1,
          currency_code := "EUR", description := none, is_active := false,
          created_at := 0, updated_at := 0 } ],
    transactions := [], entries := [],
    next_account_id := 3, next_txn_id := 1, next_entry_id := 1 }

def c8ParentAcc : Account :=
  { id := some 1, name := "P", account_type := .Asset, parent_id := none,
    currency := Currency.eur, description := none, is_active := true,
    created_at := 0, updated_at := 0 }

def c8ChildAcc : Account :=
  { id := some 2, name := "Ch", account_type := .Asset, parent_id := some 1,
    currency := Currency.eur, description := none, is_active := true,
    created_at := 0, updated_at := 0 }

/-- C8 witness: with one active (EUR) child the deactivation fails with
the specific `ValidationError` and the store is untouched; with only an
inactive child it succeeds. -/
theorem C8_deactivate_account_witness :
    AccountService.deactivate_account c8okDb 1 9 =
      (.error (.ValidationError
        "Cannot deactivate account 1 - it has 1 child accounts"), c8okDb) ∧
    (AccountService.deactivate_account c8inactDb 1 9).1 = .ok () :=
  ⟨(C8_deactivate_account c8okDb 1 9).1 c8ParentAcc [c8ChildAcc] (by decide)
      (by decide) (by simp),
   ((C8_deactivate_account c8inactDb 1 9).2.2.1 c8ParentAcc (by decide)
      (by decide)).1⟩

/-! ## Claim C9: `update_account` changes only name, description,
`updated_at` -/

/-- A successful `update_account` went through the repository's
name/description/updated_at rewrite of the rows matching the input id. -/
theorem update_account_ok (db : DB) (account : Account) (now : Nat)
    (ret : Account) (db' : DB)
    (h : AccountService.update_account db account now = (.ok ret, db')) :
    ∃ aid, account.id = some aid ∧
      db' = { db with accounts := db.accounts.map (fun a =>
        if a.id = aid then
          { a with name := account.name, description := account.description,
                   updated_at := now }
        else a) } := by
  revert h
  unfold AccountService.update_account
  rcases AccountRepository.get_by_id db (account.id.getD 0) with e | curr
  · intro h; exact absurd (congrArg Prod.fst h) (by simp)
  · rcases AccountService.update_parent_check db account with e | u
    · intro h; exact absurd (congrArg Prod.fst h) (by simp)
    · cases u
      by_cases hc : AccountService.self_cycle account = true
      · rw [if_pos hc]
        intro h; exact absurd (congrArg Prod.fst h) (by simp)
      · rw [if_neg hc]
        unfold AccountRepository.update
        rcases hid : account.id with _ | aid
        · intro h; exact absurd (congrArg Prod.fst h) (by simp)
        · intro h
          exact ⟨aid, rfl, (congrArg Prod.snd h).symm⟩

/-- Pointwise relation between the old and new row lists produced by a
row-mapping operation. -/
theorem forall₂_map_self {α : Type} (f : α → α) (P : α → α → Prop)
    (h : ∀ a, P a (f a)) : ∀ l : List α, List.Forall₂ P l (l.map f)
  | [] => List.Forall₂.nil
  | a :: tl => List.Forall₂.cons (h a) (forall₂_map_self f P h tl)

/-- C9. Whenever `update_account` accepts an input, the stored rows
change only in name, description and `updated_at`: row for row, the
persisted `id`, `account_type`, `parent_id`, `currency`, `is_active` and
`created_at` keep their previous values — whatever the input carried for
those fields — rows other than the target are untouched entirely, and
the target row takes the input's name and description. -/
theorem C9_update_account_frame (db : DB) (account : Account) (now : Nat)
    (ret : Account) (db' : DB)
    (h : AccountService.update_account db account now = (.ok ret, db')) :
    ∃ aid, account.id = some aid ∧
      List.Forall₂ (fun (a b : StoredAccount) =>
        b.id = a.id ∧
        b.account_type = a.account_type ∧
        b.parent_id = a.parent_id ∧
        b.currency_code = a.currency_code ∧
        b.is_active = a.is_active ∧
        b.created_at = a.created_at ∧
        (a.id = aid → b.name = account.name ∧
          b.description = account.description ∧ b.updated_at = now) ∧
        (a.id ≠ aid → b = a)) db.accounts db'.accounts := by
  obtain ⟨aid, hid, hdb⟩ := update_account_ok db account now ret db' h
  refine ⟨aid, hid, ?_⟩
  rw [hdb]
  apply forall₂_map_self
  intro a
  dsimp only
  by_cases ha : a.id = aid
  · rw [if_pos ha]
    exact ⟨rfl, rfl, rfl, rfl, rfl, rfl, fun _ => ⟨rfl, rfl, rfl⟩,
      fun hne => absurd ha hne⟩
  · rw [if_neg ha]
    exact ⟨rfl, rfl, rfl, rfl, rfl, rfl, fun heq => absurd heq ha,
      fun _ => rfl⟩

/-- An update input that tries to smuggle changes into every immutable
field of row 1 of `c8okDb` (type, parent, currency, activity,
created_at). -/
def c9Input : Account :=
  { id := some 1, name := "Renamed", account_type := .Income,
    parent_id := none, currency := Currency.btc,
    description := some "new text", is_active := false,
    created_at := 777, updated_at := 777 }

/-- The account the smuggling update returns (the re-read row). -/
def c9Ret : Account :=
  { id := some 1, name := "Renamed", account_type := .Asset,
    parent_id := none, currency := Currency.eur,
    description := some "new text", is_active := true,
    created_at := 0, updated_at := 9 }

/-- The store after the smuggling update: only row 1's name,
description and `updated_at` moved. -/
def c9Db : DB :=
  { accounts :=
      [ { id := 1, name := "Renamed", account_type := .Asset,
          parent_id := none, currency_code := "EUR",
          description := some "new text", is_active := true,
          created_at := 0, updated_at := 9 },
        { id := 2, name := "Ch", account_type := .Asset, parent_id := some 1,
          currency_code := "EUR", description := none, is_active := true,
          created_at := 0, updated_at := 0 } ],
    transactions := [], entries := [],
    next_account_id := 3, next_txn_id := 1, next_entry_id := 1 }

/-- C9 witness: the smuggling update is accepted, and the persisted rows
keep every immutable field. -/
theorem C9_update_account_frame_witness :
    List.Forall₂ (fun (a b : StoredAccount) =>
      b.id = a.id ∧
      b.account_type = a.account_type ∧
      b.parent_id = a.parent_id ∧
      b.currency_code = a.currency_code ∧
      b.is_active = a.is_active ∧
      b.created_at = a.created_at ∧
      (a.id = (1 : Int) → b.name = c9Input.name ∧
        b.description = c9Input.description ∧ b.updated_at = 9) ∧
      (a.id ≠ (1 : Int) → b = a)) c8okDb.accounts c9Db.accounts := by
  obtain ⟨aid, hid, hf⟩ :=
    C9_update_account_frame c8okDb c9Input 9 c9Ret c9Db (by decide)
  have haid : (1 : Int) = aid := by injection hid
  rw [haid]
  exact hf

/-! ## Claim C10: balance results carry a reconstructed currency
(scale 2, symbol `€`) -/

theorem Currency.new_ok (code : String) (s : Nat) (sym : String)
    (c : Currency) (h : Currency.new code s sym = .ok c) :
    c = ⟨code, s, sym⟩ := by
  unfold Currency.new at h
  by_cases hl : code.length ≠ 3
  · rw [if_pos hl] at h; exact Except.noConfusion h
  · rw [if_neg hl] at h; injection h with h; exact h.symm

/-- A 3-letter code makes the shared balance tail succeed with the
normal-balance value and the scale-2 `€` descriptor. -/
theorem balanceFromSums_some (t : AccountType) (d c : Int) (code : String)
    (hlen : code.length = 3) :
    AccountService.balanceFromSums t (some (d, c, code)) =
      .ok ⟨AccountService.normalBalance t d c, ⟨code, 2, "€"⟩⟩ := by
  show (match Currency.new code 2 "€" with
    | Except.error e => Except.error e
    | Except.ok currency =>
        Except.ok (Money.from_minor_units (AccountService.normalBalance t d c)
          currency)) =
    Except.ok ⟨AccountService.normalBalance t d c, ⟨code, 2, "€"⟩⟩
  rw [show Currency.new code 2 "€" = .ok ⟨code, 2, "€"⟩ by
    unfold Currency.new
    rw [if_neg (by omega)]]
  rfl

/-- Whatever the shared balance tail returns on present sums carries the
reconstructed `⟨code, 2, €⟩` descriptor. -/
theorem balanceFromSums_currency (t : AccountType) (d c : Int)
    (code : String) (m : Money)
    (h : AccountService.balanceFromSums t (some (d, c, code)) = .ok m) :
    m.currency = ⟨code, 2, "€"⟩ := by
  revert h
  show (match Currency.new code 2 "€" with
    | Except.error e => Except.error e
    | Except.ok currency =>
        Except.ok (Money.from_minor_units (AccountService.normalBalance t d c)
          currency)) = Except.ok m → m.currency = ⟨code, 2, "€"⟩
  rcases hnew : Currency.new code 2 "€" with e | cur
  · intro h; exact Except.noConfusion h
  · intro h
    injection h with h
    rw [← h]
    exact Currency.new_ok code 2 "€" cur hnew

/-- `calculate_balance` on an account that resolves is the shared tail
on the single-account sums. -/
theorem calculate_balance_eq (db : DB) (aid : Int) (account : Account)
    (hacc : AccountRepository.get_by_id db aid = .ok account) :
    AccountService.calculate_balance db aid =
      AccountService.balanceFromSums account.account_type
        (AccountRepository.get_account_transaction_sums db aid) := by
  unfold AccountService.calculate_balance
  rw [hacc]

/-- `calculate_balance_with_children` on an account that resolves is the
shared tail on the combined sums of the descendant set. -/
theorem calculate_balance_with_children_eq (db : DB) (aid : Int)
    (account : Account)
    (hacc : AccountRepository.get_by_id db aid = .ok account) :
    AccountService.calculate_balance_with_children db aid =
      AccountService.balanceFromSums account.account_type
        (AccountRepository.get_multiple_accounts_transaction_sums db
          (AccountRepository.get_descendant_account_ids db aid)) := by
  unfold AccountService.calculate_balance_with_children
  rw [hacc]

/-- Account 1 holds BTC postings (stored account currency `BTC`, one
debit of 500 minor units in `BTC`). -/
def c10db : DB :=
  { accounts :=
      [ { id := 1, name := "Cold wallet", account_type := .Asset,
          parent_id := none, currency_code := "BTC", description := none,
          is_active := true, created_at := 0, updated_at := 0 } ],
    transactions :=
      [ { id := 1, description := "buy", reference := none,
          transaction_date := ⟨2025, 7, 6⟩, created_at := 0, tags := none,
          notes := none } ],
    entries :=
      [ { id := 1, transaction_id := 1, account_id := 1, amount_minor := 500,
          currency_code := "BTC", entry_type_str := "debit",
          description := none, created_at := 0 } ],
    next_account_id := 2, next_txn_id := 2, next_entry_id := 2 }

/-- C10. All three balance computations rebuild the returned `Money`'s
currency as `Currency::new(code, 2, "€")`: the code is the stored one,
but the scale is always 2 and the symbol always `€`. Concretely, for the
BTC account the returned descriptor is `⟨BTC, 2, €⟩`, agreeing with the
real `Currency::btc()` (scale 8, symbol ₿) only in its code. -/
theorem C10_hardcoded_currency_scale :
    (∀ db aid d c code m,
      AccountRepository.get_account_transaction_sums db aid =
        some (d, c, code) →
      AccountService.calculate_balance db aid = .ok m →
      m.currency = ⟨code, 2, "€"⟩) ∧
    (∀ db aid d c code m,
      AccountRepository.get_multiple_accounts_transaction_sums db
        (AccountRepository.get_descendant_account_ids db aid) =
        some (d, c, code) →
      AccountService.calculate_balance_with_children db aid = .ok m →
      m.currency = ⟨code, 2, "€"⟩) ∧
    (∀ db aid date d c code m,
      AccountRepository.get_account_transaction_sums_before_date db aid date =
        some (d, c, code) →
      AccountService.calculate_account_balance db aid (some date) = .ok m →
      m.currency = ⟨code, 2, "€"⟩) ∧
    (AccountService.calculate_balance c10db 1 =
      .ok ⟨500, ⟨"BTC", 2, "€"⟩⟩ ∧
     Currency.btc.minor_unit_scale = 8 ∧
     Currency.btc.symbol = "₿" ∧
     (⟨"BTC", 2, "€"⟩ : Currency) ≠ Currency.btc ∧
     (⟨"BTC", 2, "€"⟩ : Currency).code = Currency.btc.code) := by
  refine ⟨?_, ?_, ?_, by decide, rfl, rfl, by decide, rfl⟩
  · intro db aid d c code m hsum hm
    revert hm
    unfold AccountService.calculate_balance
    rcases AccountRepository.get_by_id db aid with e | acc
    · intro hm
      have hm2 : (Except.error e : Except WalletError Money) = .ok m := hm
      exact Except.noConfusion hm2
    · intro hm
      have hm2 : AccountService.balanceFromSums acc.account_type
          (AccountRepository.get_account_transaction_sums db aid) = .ok m := hm
      rw [hsum] at hm2
      exact balanceFromSums_currency acc.account_type d c code m hm2
  · intro db aid d c code m hsum hm
    revert hm
    unfold AccountService.calculate_balance_with_children
    rcases AccountRepository.get_by_id db aid with e | acc
    · intro hm
      have hm2 : (Except.error e : Except WalletError Money) = .ok m := hm
      exact Except.noConfusion hm2
    · intro hm
      have hm2 : AccountService.balanceFromSums acc.account_type
          (AccountRepository.get_multiple_accounts_transaction_sums db
            (AccountRepository.get_descendant_account_ids db aid)) =
          .ok m := hm
      rw [hsum] at hm2
      exact balanceFromSums_currency acc.account_type d c code m hm2
  · intro db aid date d c code m hsum hm
    revert hm
    unfold AccountService.calculate_account_balance
    rcases AccountRepository.get_by_id db aid with e | acc
    · intro hm
      have hm2 : (Except.error e : Except WalletError Money) = .ok m := hm
      exact Except.noConfusion hm2
    · intro hm
      have hm2 : AccountService.balanceFromSums acc.account_type
          (AccountRepository.get_account_transaction_sums_before_date db aid
            date) = .ok m := hm
      rw [hsum] at hm2
      exact balanceFromSums_currency acc.account_type d c code m hm2

/-- C10 witness: the general conjunct applied to the BTC store. -/
theorem C10_hardcoded_currency_scale_witness :
    (Money.mk 500 ⟨"BTC", 2, "€"⟩).currency = ⟨"BTC", 2, "€"⟩ :=
  C10_hardcoded_currency_scale.1 c10db 1 500 0 "BTC" ⟨500, ⟨"BTC", 2, "€"⟩⟩
    (by decide) (by decide)

/-! ## Claim C3: `calculate_balance` and the normal-balance rule

The claim's "debits and credits" are the sums over *all* of the
account's entries. The code, however, runs `GROUP BY currency` and takes
a single currency group (`fetch_optional` returns one row) — so with
postings in two currencies the result is the net of one group only, not
of all entries. SQLite's group order is unspecified, but in the
counterexample below *any* single group (100, or 7) differs from the
full net (107), so the claim fails under every group order. -/

/-- The claim's debit total: sum over all of the account's Debit
entries, written from the spec's words. -/
def specDebits (db : DB) (aid : Int) : Int :=
  ((db.entries.filter (fun e => e.account_id = aid)).map debitPart).sum

/-- The claim's credit total. -/
def specCredits (db : DB) (aid : Int) : Int :=
  ((db.entries.filter (fun e => e.account_id = aid)).map creditPart).sum

/-- No postings → no sums row. -/
theorem sums_none (db : DB) (aid : Int)
    (h : db.entries.filter (fun e => e.account_id = aid) = []) :
    AccountRepository.get_account_transaction_sums db aid = none := by
  unfold AccountRepository.get_account_transaction_sums
  rw [h]

/-- With at least one posting, all in one currency, the sums row is the
full debit/credit totals in that currency (the single `GROUP BY` group
is the whole filtered set). -/
theorem sums_uniform (db : DB) (aid : Int) (c0 : String)
    (hne : db.entries.filter (fun e => e.account_id = aid) ≠ [])
    (huni : ∀ e ∈ db.entries.filter (fun e => e.account_id = aid),
      e.currency_code = c0) :
    AccountRepository.get_account_transaction_sums db aid =
      some (specDebits db aid, specCredits db aid, c0) := by
  unfold AccountRepository.get_account_transaction_sums
  unfold specDebits specCredits
  rcases hes : db.entries.filter (fun e => e.account_id = aid) with
    _ | ⟨e0, rest⟩
  · exact absurd hes hne
  · have he0 : e0.currency_code = c0 :=
      huni e0 (by rw [hes]; exact List.mem_cons_self e0 rest)
    have hgrp : (e0 :: rest).filter
        (fun e => e.currency_code = e0.currency_code) = e0 :: rest := by
      rw [List.filter_eq_self]
      intro e he
      have : e.currency_code = c0 := huni e (by rw [hes]; exact he)
      simp [this, he0]
    rw [hes]
    show some
      ((((e0 :: rest).filter
          (fun e => e.currency_code = e0.currency_code)).map
            debitPart).sum,
       (((e0 :: rest).filter
          (fun e => e.currency_code = e0.currency_code)).map
            creditPart).sum,
       e0.currency_code) = _
    rw [hgrp, he0]

/-- Asset account 1 with two debit postings: 100 in EUR and 7 in BTC
(reachable: transactions are single-currency, but two transactions in
different currencies may post to one account). -/
def c3db : DB :=
  { accounts :=
      [ { id := 1, name := "A", account_type := .Asset, parent_id := none,
          currency_code := "EUR", description := none, is_active := true,
          created_at := 0, updated_at := 0 } ],
    transactions := [],
    entries :=
      [ { id := 1, transaction_id := 1, account_id := 1, amount_minor := 100,
          currency_code := "EUR", entry_type_str := "debit",
          description := none, created_at := 0 },
        { id := 2, transaction_id := 2, account_id := 1, amount_minor := 7,
          currency_code := "BTC", entry_type_str := "debit",
          description := none, created_at := 0 } ],
    next_account_id := 2, next_txn_id := 3, next_entry_id := 3 }

/-- C3 counterexample: account 1 (Asset) has debits − credits = 107 over
its entries, but `calculate_balance` returns 100 (the EUR group alone;
the other group order would give 7, never 107). -/
theorem C3_counterexample :
    specDebits c3db 1 - specCredits c3db 1 = 107 ∧
    AccountService.calculate_balance c3db 1 =
      .ok ⟨100, ⟨"EUR", 2, "€"⟩⟩ ∧
    ((100 : Int) ≠ 107 ∧ (7 : Int) ≠ 107) := by
  refine ⟨by decide, by decide, by decide, by decide⟩

/-- Two seeded roots: Assets (1) and Income (2). -/
def c3SeedDb : DB :=
  { accounts :=
      [ { id := 1, name := "Assets", account_type := .Asset, parent_id := none,
          currency_code := "EUR", description := none, is_active := true,
          created_at := 0, updated_at := 0 },
        { id := 2, name := "Income", account_type := .Income, parent_id := none,
          currency_code := "EUR", description := none, is_active := true,
          created_at := 0, updated_at := 0 } ],
    transactions := [], entries := [],
    next_account_id := 3, next_txn_id := 1, next_entry_id := 1 }

/-- The seeded scenario, built through the services: child `Bank` (3)
under Assets, child `Salary` (4) under Income. -/
def c3Db1 : DB :=
  (AccountService.create_account c3SeedDb "Bank" .Asset (some 1)
    Currency.eur 1).2

def c3Db2 : DB :=
  (AccountService.create_account c3Db1 "Salary" .Income (some 2)
    Currency.eur 2).2

def c3TxnEntries : List TransactionEntryInput :=
  [ { account_id := 3, amount := Money.from_minor_units 100000 Currency.eur,
      entry_type := .Debit, description := none },
    { account_id := 4, amount := Money.from_minor_units 100000 Currency.eur,
      entry_type := .Credit, description := none } ]

def c3Db3 : DB :=
  (TransactionService.create_transaction c3Db2 none "Salary payment"
    ⟨2025, 7, 6⟩ c3TxnEntries 3).2

/-- C3 amended: for an account that resolves, has at least one posting,
and whose postings all share one (3-letter) currency code,
`calculate_balance` returns the normal-balance net of all its entries —
debits − credits for Asset/Expense, credits − debits for
Liability/Equity/Income — in that code. In the seeded Bank/Salary
scenario (posted through the services), both balances are 100000. -/
theorem C3_calculate_balance (db : DB) (aid : Int) (acc : Account)
    (c0 : String)
    (hacc : AccountRepository.get_by_id db aid = .ok acc)
    (hne : db.entries.filter (fun e => e.account_id = aid) ≠ [])
    (huni : ∀ e ∈ db.entries.filter (fun e => e.account_id = aid),
      e.currency_code = c0)
    (hlen : c0.length = 3) :
    (AccountService.calculate_balance db aid =
      .ok ⟨AccountService.normalBalance acc.account_type
            (specDebits db aid) (specCredits db aid), ⟨c0, 2, "€"⟩⟩ ∧
     ((acc.account_type = .Asset ∨ acc.account_type = .Expense) →
       AccountService.normalBalance acc.account_type
           (specDebits db aid) (specCredits db aid) =
         specDebits db aid - specCredits db aid) ∧
     ((acc.account_type = .Liability ∨ acc.account_type = .Equity ∨
         acc.account_type = .Income) →
       AccountService.normalBalance acc.account_type
           (specDebits db aid) (specCredits db aid) =
         specCredits db aid - specDebits db aid)) ∧
    (AccountService.calculate_balance c3Db3 3 =
      .ok ⟨100000, ⟨"EUR", 2, "€"⟩⟩ ∧
     AccountService.calculate_balance c3Db3 4 =
      .ok ⟨100000, ⟨"EUR", 2, "€"⟩⟩) := by
  refine ⟨⟨?_, ?_, ?_⟩, by decide, by decide⟩
  · rw [calculate_balance_eq db aid acc hacc, sums_uniform db aid c0 hne huni]
    exact balanceFromSums_some acc.account_type (specDebits db aid)
      (specCredits db aid) c0 hlen
  · rintro (h | h) <;> rw [h] <;> rfl
  · rintro (h | h | h) <;> rw [h] <;> rfl

/-- C3 witness: the amended statement applied to the BTC store (one
debit of 500, all postings in `BTC`). -/
theorem C3_calculate_balance_witness :
    AccountService.calculate_balance c10db 1 =
      .ok ⟨AccountService.normalBalance .Asset
            (specDebits c10db 1) (specCredits c10db 1), ⟨"BTC", 2, "€"⟩⟩ :=
  ((C3_calculate_balance c10db 1
      { id := some 1, name := "Cold wallet", account_type := .Asset,
        parent_id := none, currency := Currency.btc, description := none,
        is_active := true, created_at := 0, updated_at := 0 }
      "BTC" (by decide) (by decide) (by decide) (by decide)).1).1

/-! ## Claim C4: hierarchical balance

The claim sums `calculate_balance` over "the parent and every active
descendant". The recursive CTE, however, only reaches descendants
through chains of *active* accounts: an active account below an
inactive one is an active descendant per the claim but invisible to the
CTE — and such states are reachable (`create_account` never checks that
the parent is active, so a child can be created under an already
deactivated account). -/

/-- `root` is a proper ancestor of `i` along stored parent links
(activity ignored) — the plain "descendant" notion of the claim. -/
def isAncestorOf (db : DB) (root : Int) : Nat → Int → Bool
  | 0, _ => false
  | fuel + 1, i =>
      match db.accounts.find? (fun a => a.id = i) with
      | some a =>
          match a.parent_id with
          | some p => p = root || isAncestorOf db root fuel p
          | none => false
      | none => false

def isActiveId (db : DB) (i : Int) : Bool :=
  match db.accounts.find? (fun a => a.id = i) with
  | some a => a.is_active
  | none => false

/-- The claim's set, from its words: the parent itself plus every active
descendant. -/
def specActiveSubtree (db : DB) (root : Int) : List Int :=
  (db.accounts.map (fun a => a.id)).filter
    (fun i => i = root ||
      (isAncestorOf db root (db.accounts.length + 1) i && isActiveId db i))

def exceptAmount : Except WalletError Money → Int
  | .ok m => m.amount_minor
  | .error _ => 0

/-- The minor-unit amount `calculate_balance` reports (0 on failure;
paired with `isOk` facts wherever it matters). -/
def balAmount (db : DB) (i : Int) : Int :=
  exceptAmount (AccountService.calculate_balance db i)

/-- Active root 1, inactive middle 2, active leaf 3 (all Asset, all
EUR); one debit of 50 posted on the leaf. -/
def c4db : DB :=
  { accounts :=
      [ { id := 1, name := "A", account_type := .Asset, parent_id := none,
          currency_code := "EUR", description := none, is_active := true,
          created_at := 0, updated_at := 0 },
        { id := 2, name := "B", account_type := .Asset, parent_id := some 1,
          currency_code := "EUR", description := none, is_active := false,
          created_at := 0, updated_at := 0 },
        { id := 3, name := "C", account_type := .Asset, parent_id := some 2,
          currency_code := "EUR", description := none, is_active := true,
          created_at := 0, updated_at := 0 } ],
    transactions :=
      [ { id := 1, description := "t", reference := none,
          transaction_date := ⟨2025, 7, 6⟩, created_at := 0, tags := none,
          notes := none } ],
    entries :=
      [ { id := 1, transaction_id := 1, account_id := 3, amount_minor := 50,
          currency_code := "EUR", entry_type_str := "debit",
          description := none, created_at := 0 } ],
    next_account_id := 4, next_txn_id := 2, next_entry_id := 2 }

/-- C4 counterexample: the whole subtree of account 1 is Asset
(homogeneous), its active descendants are {3} (account 3 is active and a
descendant through the inactive 2), so the claim's sum is 0 + 50 = 50 —
but `calculate_balance_with_children(1)` is 0: the CTE never crosses the
inactive account 2. -/
theorem C4_counterexample :
    (∀ a ∈ c4db.accounts, a.account_type = .Asset) ∧
    specActiveSubtree c4db 1 = [1, 3] ∧
    ((specActiveSubtree c4db 1).map (balAmount c4db)).sum = 50 ∧
    AccountService.calculate_balance_with_children c4db 1 =
      .ok ⟨0, Currency.eur⟩ ∧
    (0 : Int) ≠ 50 := by
  refine ⟨by decide, by decide, by decide, by decide, by decide⟩

/-- Combined debit total of a set of accounts, as the `IN (...)` query
sums it. -/
def specSetDebits (db : DB) (ids : List Int) : Int :=
  ((db.entries.filter (fun e => ids.contains e.account_id)).map debitPart).sum

def specSetCredits (db : DB) (ids : List Int) : Int :=
  ((db.entries.filter (fun e => ids.contains e.account_id)).map creditPart).sum

theorem normalBalance_add (A : AccountType) (d1 c1 d2 c2 : Int) :
    AccountService.normalBalance A (d1 + d2) (c1 + c2) =
      AccountService.normalBalance A d1 c1 +
        AccountService.normalBalance A d2 c2 := by
  cases A <;> simp [AccountService.normalBalance] <;> ring

theorem normalBalance_zero (A : AccountType) :
    AccountService.normalBalance A 0 0 = 0 := by
  cases A <;> rfl

theorem sum_normalBalance (A : AccountType) (f g : Int → Int) :
    ∀ l : List Int,
      (l.map (fun i => AccountService.normalBalance A (f i) (g i))).sum =
        AccountService.normalBalance A ((l.map f).sum) ((l.map g).sum)
  | [] => (normalBalance_zero A).symm
  | i :: l => by
      simp only [List.map_cons, List.sum_cons, sum_normalBalance A f g l,
        normalBalance_add]

/-- Splitting a filtered sum along a disjunction of disjoint predicates. -/
theorem sum_map_filter_disjoint (g : StoredEntry → Int)
    (p q : StoredEntry → Bool) (hdisj : ∀ e, p e = true → q e = false) :
    ∀ es : List StoredEntry,
      ((es.filter (fun e => p e || q e)).map g).sum =
      ((es.filter p).map g).sum + ((es.filter q).map g).sum
  | [] => by simp
  | e :: es => by
      have ih := sum_map_filter_disjoint g p q hdisj es
      cases hp : p e <;> cases hq : q e
      · simp [List.filter_cons, hp, hq, ih]
      · simp [List.filter_cons, hp, hq, ih]
        ring
      · simp [List.filter_cons, hp, hq, ih]
        ring
      · exact absurd hq (by simp [hdisj e hp])

/-- Partition: over distinct account ids, the per-account filtered sums
add up to the combined `IN (...)` sum. -/
theorem sum_map_filter_partition (g : StoredEntry → Int) :
    ∀ (ids : List Int), ids.Nodup → ∀ es : List StoredEntry,
      (ids.map (fun i =>
        ((es.filter (fun e => e.account_id = i)).map g).sum)).sum =
      ((es.filter (fun e => ids.contains e.account_id)).map g).sum
  | [], _, es => by simp
  | i :: ids, hnd, es => by
      have hni : i ∉ ids := (List.nodup_cons.mp hnd).1
      have ih := sum_map_filter_partition g ids (List.nodup_cons.mp hnd).2 es
      have hcongr : es.filter (fun e => (i :: ids).contains e.account_id) =
          es.filter (fun e =>
            (decide (e.account_id = i) || ids.contains e.account_id)) :=
        List.filter_congr (fun e _ => by rw [List.contains_cons]; rfl)
      have hdisj : ∀ e : StoredEntry, decide (e.account_id = i) = true →
          ids.contains e.account_id = false := fun e he => by
        rw [of_decide_eq_true he]
        exact Bool.eq_false_iff.mpr (fun hc => hni (List.elem_iff.mp hc))
      rw [List.map_cons, List.sum_cons, ih, hcongr,
        sum_map_filter_disjoint g _ _ hdisj es]

/-- No postings on the set → no combined sums row. -/
theorem multi_sums_none (db : DB) (ids : List Int)
    (h : db.entries.filter (fun e => ids.contains e.account_id) = []) :
    AccountRepository.get_multiple_accounts_transaction_sums db ids =
      none := by
  unfold AccountRepository.get_multiple_accounts_transaction_sums
  by_cases hids : ids.isEmpty
  · rw [if_pos hids]
  · rw [if_neg hids, h]

/-- With at least one posting on the set, all in one currency, the
combined sums row is the full totals in that currency. -/
theorem multi_sums_uniform (db : DB) (ids : List Int) (c0 : String)
    (hne : db.entries.filter (fun e => ids.contains e.account_id) ≠ [])
    (huni : ∀ e ∈ db.entries.filter (fun e => ids.contains e.account_id),
      e.currency_code = c0) :
    AccountRepository.get_multiple_accounts_transaction_sums db ids =
      some (specSetDebits db ids, specSetCredits db ids, c0) := by
  have hids : ids.isEmpty = false := by
    rcases ids with _ | ⟨i, ids⟩
    · exact absurd (by simp : db.entries.filter
        (fun e => ([] : List Int).contains e.account_id) = []) hne
    · rfl
  unfold AccountRepository.get_multiple_accounts_transaction_sums
  unfold specSetDebits specSetCredits
  rw [if_neg (by simp [hids])]
  rcases hes : db.entries.filter (fun e => ids.contains e.account_id) with
    _ | ⟨e0, rest⟩
  · exact absurd hes hne
  · have he0 : e0.currency_code = c0 :=
      huni e0 (by rw [hes]; exact List.mem_cons_self e0 rest)
    have hgrp : (e0 :: rest).filter
        (fun e => e.currency_code = e0.currency_code) = e0 :: rest := by
      rw [List.filter_eq_self]
      intro e he
      have : e.currency_code = c0 := huni e (by rw [hes]; exact he)
      simp [this, he0]
    rw [hes]
    show some
      ((((e0 :: rest).filter
          (fun e => e.currency_code = e0.currency_code)).map
            debitPart).sum,
       (((e0 :: rest).filter
          (fun e => e.currency_code = e0.currency_code)).map
            creditPart).sum,
       e0.currency_code) = _
    rw [hgrp, he0]

/-- An account that resolves, with single-currency postings: its
reported balance is the normal-balance net of all its entries. -/
theorem calculate_balance_amount (db : DB) (i : Int) (acc : Account)
    (c0 : String)
    (hacc : AccountRepository.get_by_id db i = .ok acc)
    (huni : ∀ e ∈ db.entries.filter (fun e => e.account_id = i),
      e.currency_code = c0)
    (hlen : c0.length = 3) :
    (AccountService.calculate_balance db i).isOk = true ∧
    balAmount db i =
      AccountService.normalBalance acc.account_type (specDebits db i)
        (specCredits db i) := by
  unfold balAmount
  rcases hes : db.entries.filter (fun e => e.account_id = i) with _ | ⟨e0, rest⟩
  · rw [calculate_balance_eq db i acc hacc, sums_none db i hes]
    refine ⟨rfl, ?_⟩
    show (0 : Int) = _
    unfold specDebits specCredits
    rw [hes]
    exact (normalBalance_zero acc.account_type).symm
  · have hne : db.entries.filter (fun e => e.account_id = i) ≠ [] := by
      rw [hes]; exact List.cons_ne_nil e0 rest
    rw [calculate_balance_eq db i acc hacc, sums_uniform db i c0 hne huni,
      balanceFromSums_some acc.account_type _ _ c0 hlen]
    exact ⟨rfl, rfl⟩

/-- Every id in the CTE result resolves to a stored row with that id. -/
theorem descendant_resolves (db : DB) (pid i : Int)
    (hi : i ∈ AccountRepository.get_descendant_account_ids db pid) :
    ∃ a : StoredAccount, db.accounts.find? (fun x => x.id = i) = some a ∧
      a.id = i ∧ a ∈ db.accounts := by
  unfold AccountRepository.get_descendant_account_ids at hi
  obtain ⟨hmem, _⟩ := List.mem_filter.mp hi
  obtain ⟨a0, ha0mem, ha0id⟩ := List.mem_map.mp hmem
  have hsome : (db.accounts.find? (fun x => x.id = i)).isSome := by
    rw [List.find?_isSome]
    exact ⟨a0, ha0mem, by simp [ha0id]⟩
  rcases hf : db.accounts.find? (fun x => x.id = i) with _ | a
  · rw [hf] at hsome; exact absurd hsome (by simp)
  · exact ⟨a, hf, by simpa using List.find?_some hf,
      List.mem_of_find?_eq_some hf⟩

theorem decodeAccount_eur (a : StoredAccount) (h : a.currency_code = "EUR") :
    AccountRepository.decodeAccount a = .ok
      { id := some a.id, name := a.name, account_type := a.account_type,
        parent_id := a.parent_id, currency := Currency.eur,
        description := a.description, is_active := a.is_active,
        created_at := a.created_at, updated_at := a.updated_at } := by
  unfold AccountRepository.decodeAccount
  rw [h]
  rfl

theorem decodeAccount_btc (a : StoredAccount) (h : a.currency_code = "BTC") :
    AccountRepository.decodeAccount a = .ok
      { id := some a.id, name := a.name, account_type := a.account_type,
        parent_id := a.parent_id, currency := Currency.btc,
        description := a.description, is_active := a.is_active,
        created_at := a.created_at, updated_at := a.updated_at } := by
  unfold AccountRepository.decodeAccount
  rw [h]
  rfl

/-- A stored row with a recognized currency code decodes; the decoded
account keeps the stored type. -/
theorem get_by_id_decoded_type (db : DB) (i : Int) (a : StoredAccount)
    (hfind : db.accounts.find? (fun x => x.id = i) = some a)
    (hdec : a.currency_code = "EUR" ∨ a.currency_code = "BTC") :
    ∃ acc, AccountRepository.get_by_id db i = .ok acc ∧
      acc.account_type = a.account_type := by
  unfold AccountRepository.get_by_id
  rw [hfind]
  rcases hdec with h | h
  · exact ⟨_, decodeAccount_eur a h, rfl⟩
  · exact ⟨_, decodeAccount_btc a h, rfl⟩

/-- C4 amended: `calculate_balance_with_children(parent)` equals the sum
of `calculate_balance` over exactly the id set the CTE returns — the
parent plus the descendants reachable through chains of active accounts
(an active account under an inactive one is excluded; see the
counterexample) — provided the stored ids are unique (primary key), all
accounts of that set share the parent's type and a recognized currency,
and all their postings share one 3-letter currency code. -/
theorem C4_balance_with_children (db : DB) (pid : Int) (parent : Account)
    (c0 : String)
    (hnodup : (db.accounts.map (fun a => a.id)).Nodup)
    (hparent : AccountRepository.get_by_id db pid = .ok parent)
    (htype : ∀ a ∈ db.accounts,
      a.id ∈ AccountRepository.get_descendant_account_ids db pid →
      a.account_type = parent.account_type ∧
        (a.currency_code = "EUR" ∨ a.currency_code = "BTC"))
    (hcur : ∀ e ∈ db.entries,
      e.account_id ∈ AccountRepository.get_descendant_account_ids db pid →
      e.currency_code = c0)
    (hlen : c0.length = 3) :
    (AccountService.calculate_balance_with_children db pid).isOk = true ∧
    (∀ i ∈ AccountRepository.get_descendant_account_ids db pid,
      (AccountService.calculate_balance db i).isOk = true) ∧
    exceptAmount (AccountService.calculate_balance_with_children db pid) =
      ((AccountRepository.get_descendant_account_ids db pid).map
        (balAmount db)).sum := by
  set D := AccountRepository.get_descendant_account_ids db pid with hDdef
  have hDnodup : D.Nodup := by
    rw [hDdef]
    unfold AccountRepository.get_descendant_account_ids
    exact List.Nodup.filter _ hnodup
  have hper : ∀ i ∈ D, (AccountService.calculate_balance db i).isOk = true ∧
      balAmount db i =
        AccountService.normalBalance parent.account_type (specDebits db i)
          (specCredits db i) := by
    intro i hi
    obtain ⟨a, hfind, haid, hamem⟩ := descendant_resolves db pid i hi
    obtain ⟨hty, hdec⟩ := htype a hamem (haid.symm ▸ hi)
    obtain ⟨acc, hacc, haccty⟩ := get_by_id_decoded_type db i a hfind hdec
    have huni_i : ∀ e ∈ db.entries.filter (fun e => e.account_id = i),
        e.currency_code = c0 := by
      intro e he
      obtain ⟨hemem, heid⟩ := List.mem_filter.mp he
      have heq : e.account_id = i := of_decide_eq_true heid
      exact hcur e hemem (heq.symm ▸ hi)
    obtain ⟨hok, hamt⟩ := calculate_balance_amount db i acc c0 hacc huni_i hlen
    rw [haccty, hty] at hamt
    exact ⟨hok, hamt⟩
  have hmapeq : D.map (balAmount db) = D.map (fun i =>
      AccountService.normalBalance parent.account_type (specDebits db i)
        (specCredits db i)) :=
    List.map_congr_left (fun i hi => (hper i hi).2)
  have hRHS : (D.map (balAmount db)).sum =
      AccountService.normalBalance parent.account_type (specSetDebits db D)
        (specSetCredits db D) := by
    rw [hmapeq,
      sum_normalBalance parent.account_type (specDebits db) (specCredits db) D]
    unfold specDebits specCredits specSetDebits specSetCredits
    rw [sum_map_filter_partition debitPart D hDnodup db.entries,
      sum_map_filter_partition creditPart D hDnodup db.entries]
  have hLHS :
      (AccountService.calculate_balance_with_children db pid).isOk = true ∧
      exceptAmount (AccountService.calculate_balance_with_children db pid) =
        AccountService.normalBalance parent.account_type (specSetDebits db D)
          (specSetCredits db D) := by
    rw [calculate_balance_with_children_eq db pid parent hparent, ← hDdef]
    rcases hes : db.entries.filter (fun e => D.contains e.account_id) with
      _ | ⟨e0, rest⟩
    · rw [multi_sums_none db D hes]
      refine ⟨rfl, ?_⟩
      show (0 : Int) = _
      unfold specSetDebits specSetCredits
      rw [hes]
      exact (normalBalance_zero parent.account_type).symm
    · have hne : db.entries.filter (fun e => D.contains e.account_id) ≠ [] := by
        rw [hes]; exact List.cons_ne_nil e0 rest
      have huniD : ∀ e ∈ db.entries.filter (fun e => D.contains e.account_id),
          e.currency_code = c0 := by
        intro e he
        obtain ⟨hemem, hc⟩ := List.mem_filter.mp he
        exact hcur e hemem (List.elem_iff.mp hc)
      rw [multi_sums_uniform db D c0 hne huniD,
        balanceFromSums_some parent.account_type _ _ c0 hlen]
      exact ⟨rfl, rfl⟩
  exact ⟨hLHS.1, fun i hi => (hper i hi).1, by rw [hLHS.2, hRHS]⟩

/-- Root 1 with active child 2, a 20 debit on the root and a 30 debit on
the child, all EUR, all Asset. -/
def c4okDb : DB :=
  { accounts :=
      [ { id := 1, name := "A", account_type := .Asset, parent_id := none,
          currency_code := "EUR", description := none, is_active := true,
          created_at := 0, updated_at := 0 },
        { id := 2, name := "B", account_type := .Asset, parent_id := some 1,
          currency_code := "EUR", description := none, is_active := true,
          created_at := 0, updated_at := 0 } ],
    transactions := [],
    entries :=
      [ { id := 1, transaction_id := 1, account_id := 1, amount_minor := 20,
          currency_code := "EUR", entry_type_str := "debit",
          description := none, created_at := 0 },
        { id := 2, transaction_id := 1, account_id := 2, amount_minor := 30,
          currency_code := "EUR", entry_type_str := "debit",
          description := none, created_at := 0 } ],
    next_account_id := 3, next_txn_id := 2, next_entry_id := 3 }

def c4ParentAcc : Account :=
  { id := some 1, name := "A", account_type := .Asset, parent_id := none,
    currency := Currency.eur, description := none, is_active := true,
    created_at := 0, updated_at := 0 }

/-- C4 witness: the amended statement applied to the two-account store
(roll-up 50 = 20 + 30). -/
theorem C4_balance_with_children_witness :
    exceptAmount (AccountService.calculate_balance_with_children c4okDb 1) =
      ((AccountRepository.get_descendant_account_ids c4okDb 1).map
        (balAmount c4okDb)).sum :=
  (C4_balance_with_children c4okDb 1 c4ParentAcc "EUR" (by decide) (by decide)
    (by decide) (by decide) (by decide)).2.2

/-! ## Claim C5: monthly income/expense isolation

What the claim (and the code's own comment, "Subtract balance at start
of month to get just this month's activity") promises — every posting
inside the month counted, none outside — fails on both boundaries: the
end balance is taken as of the month's *last day* with strictly-before
semantics, so postings on the last day are dropped, and the start
balance is taken as of the day *before* the month's first day, so
postings on the previous month's last day are included. -/

/-- Credit-normal net (credits − debits) of one account's postings dated
within `[lo, hi]` — the month's activity the spec describes, written
from its words. -/
def specPeriodNetCredit (db : DB) (aid : Int) (lo hi : Date) : Int :=
  ((db.entries.filter (fun e =>
      e.account_id = aid &&
      match db.transactions.find? (fun t => t.id = e.transaction_id) with
      | some t => lo.key ≤ t.transaction_date.key &&
          t.transaction_date.key ≤ hi.key
      | none => false)).map
    (fun e => creditPart e - debitPart e)).sum

/-- One Income root with a single 100-minor-unit credit posting dated
2025-07-31 (the month's last day). -/
def c5db : DB :=
  { accounts :=
      [ { id := 1, name := "Income", account_type := .Income,
          parent_id := none, currency_code := "EUR", description := none,
          is_active := true, created_at := 0, updated_at := 0 } ],
    transactions :=
      [ { id := 1, description := "late salary", reference := none,
          transaction_date := ⟨2025, 7, 31⟩, created_at := 0, tags := none,
          notes := none } ],
    entries :=
      [ { id := 1, transaction_id := 1, account_id := 1, amount_minor := 100,
          currency_code := "EUR", entry_type_str := "credit",
          description := none, created_at := 0 } ],
    next_account_id := 2, next_txn_id := 2, next_entry_id := 2 }

/-- C5: the code at its failing input. July 2025 holds exactly one
posting, a credit of 100 on the sole Income root, dated July 31 — the
spec's month activity for July is 100 and for August 0 — yet
`get_monthly_income` reports 0 for July and 100 for August: the
month-end point-in-time balance (`< July 31`) drops the last day, and
August's start balance (`< July 31`) pushes that posting into August. -/
theorem C5_month_boundary_bug :
    specPeriodNetCredit c5db 1 ⟨2025, 7, 1⟩ ⟨2025, 7, 31⟩ = 100 ∧
    specPeriodNetCredit c5db 1 ⟨2025, 8, 1⟩ ⟨2025, 8, 31⟩ = 0 ∧
    ReportService.get_monthly_income c5db 2025 7 =
      .ok (Money.from_minor_units 0 Currency.eur) ∧
    ReportService.get_monthly_income c5db 2025 8 =
      .ok (Money.from_minor_units 100 Currency.eur) := by
  refine ⟨by decide, by decide, by decide, by decide⟩

/-- Concrete inputs exercising C1: a balanced pair, and an unbalanced
pair in one currency. -/
def c1BalancedEntries : List TransactionEntryInput :=
  [ { account_id := 1, amount := Money.from_minor_units 1000 Currency.eur,
      entry_type := .Credit, description := none },
    { account_id := 2, amount := Money.from_minor_units 1000 Currency.eur,
      entry_type := .Debit, description := none } ]

def c1UnbalancedEntries : List TransactionEntryInput :=
  [ { account_id := 1, amount := Money.from_minor_units 1000 Currency.eur,
      entry_type := .Credit, description := none },
    { account_id := 2, amount := Money.from_minor_units 1500 Currency.eur,
      entry_type := .Debit, description := none } ]

/-- C1 witness: the characterization applied to concrete inputs. -/
theorem C1_validate_transaction_balance_witness :
    TransactionService.validate_transaction_balance c1BalancedEntries = .ok () ∧
    TransactionService.validate_transaction_balance c1UnbalancedEntries =
      .error (.ValidationError
        "Transaction is not balanced: debits=1500, credits=1000") := by
  constructor
  · exact (C1_validate_transaction_balance c1BalancedEntries).1.mpr
      (by refine ⟨by decide, by decide, by decide, by decide⟩)
  · exact (C1_validate_transaction_balance c1UnbalancedEntries).2.2.2.2
      (by decide) (by decide) (by decide) (by decide)

def c2Txn : Txn :=
  { id := some 1, description := "x", reference := none,
    transaction_date := ⟨2025, 7, 6⟩, created_at := 3, tags := none,
    notes := none, entries := expectedCreatedEntries 1 3 1 c1BalancedEntries }

/-- C2 witness: on the empty store, a failure injected at the first
entry insert leaves the store empty, while the uninjected run commits
exactly the expected entry rows. -/
theorem C2_create_transaction_atomic_witness :
    (TransactionService.create_transaction emptyDb (some 1) "x" ⟨2025, 7, 6⟩
      c1BalancedEntries 3).2 = emptyDb ∧
    (TransactionService.create_transaction emptyDb none "x" ⟨2025, 7, 6⟩
      c1BalancedEntries 3).2.entries =
      expectedEntryRows 1 3 1 c1BalancedEntries := by
  constructor
  · exact (C2_create_transaction_atomic emptyDb (some 1) "x" ⟨2025, 7, 6⟩
      c1BalancedEntries 3).2.1 (by decide)
  · have h := ((C2_create_transaction_atomic emptyDb none "x" ⟨2025, 7, 6⟩
      c1BalancedEntries 3).2.2 c2Txn (by decide)).2.1
    rw [h]
    rfl


end OxWallet
